import Mathlib

/-!
# Spherical-harmonic rotator (`examples/rotator/src/rotator.c`)

A shallow embedding of the rotator's parameter state (angle setters and
getters, flip toggles, enum setters) and of its frame processor
`rotator_process`, followed by the properties established about them.

Samples are elements of an arbitrary linearly ordered field `α` (the reals, or
the rationals when a computation has to be evaluated); the C `int`s that the
code compares and stores are `Int`, loop counters and buffer indices are `Nat`.
The constants and macros of the headers `rotator.h` / `rotator_internal.h` and
the external collaborators (`sqrtf`, `yawPitchRoll2Rzyx`, `getSHrotMtxReal`)
are collected in `Env`.

The yaw functions are embedded a second time on `float`s (namespace
`Binary32`: rationals with an explicit rounding after every multiplication and
division), for the properties of the stored angle that rounding decides.
-/

namespace Rotator

/-- A buffer of channels: `buf c t` is sample `t` of channel (row) `c`. It
stands for `float**` host buffers and for the `float [NUM_SH_SIGNALS][FRAME_SIZE]`
members of the rotator. -/
abbrev Frame (α : Type) := Nat → Nat → α

/-- Constants, macros and external collaborators that `rotator.c` takes from
its headers and libraries. -/
structure Env (α : Type) where
  /-- The compile-time constant `SH_ORDER`. -/
  SH_ORDER : Nat
  /-- The compile-time constant `FRAME_SIZE`. -/
  FRAME_SIZE : Nat
  /-- The enumerator `CH_ACN` of `CH_ORDER`. -/
  CH_ACN : Int
  /-- The enumerator `NORM_N3D` of `NORM_TYPES`. -/
  NORM_N3D : Int
  /-- The enumerator `NORM_SN3D` of `NORM_TYPES`. -/
  NORM_SN3D : Int
  /-- The constant `PI` used by the degree/radian macros. -/
  PI : α
  /-- The C library function `sqrtf`. -/
  sqrtf : α → α
  /-- The collaborator `yawPitchRoll2Rzyx (yaw, pitch, roll, Rxyz)`: the 3 x 3 matrix it writes. -/
  yawPitchRoll2Rzyx : α → α → α → Frame α
  /-- The collaborator `getSHrotMtxReal (Rxyz, M_rot, order)`: the matrix it writes. -/
  getSHrotMtxReal : Frame α → Nat → Frame α

/-- The struct `rotator_data`. -/
structure rotator_data (α : Type) where
  inputFrameTD : Frame α
  outputFrameTD : Frame α
  yaw : α
  pitch : α
  roll : α
  bFlipYaw : Int
  bFlipPitch : Int
  bFlipRoll : Int
  chOrdering : Int
  norm : Int

section Model

variable {α : Type} [LinearOrderedField α]

/-- Modelled from the spec: the macro `NUM_SH_SIGNALS` of the absent header
`rotator_internal.h`, the SH channel count `(order+1)²`. -/
def NUM_SH_SIGNALS (E : Env α) : Nat := (E.SH_ORDER + 1) * (E.SH_ORDER + 1)

/-- Modelled from the spec: the macro `DEG2RAD` of the absent header
(`toRadians`), the scaling by `PI / 180`. -/
def DEG2RAD (E : Env α) (x : α) : α := x * E.PI / 180

/-- Modelled from the spec: the macro `RAD2DEG` of the absent header
(`toDegrees`), the scaling by `180 / PI`. -/
def RAD2DEG (E : Env α) (x : α) : α := x * 180 / E.PI

/-- Modelled from the spec: the macro `MIN` of the absent header, on C `int`s. -/
def MIN (a b : Int) : Int := if a < b then a else b

/-- The iterations `i, i+1, ...` of a C `for` loop that still has `fuel`
rounds to go. -/
def loopFrom {σ : Type} (body : Nat → σ → σ) : Nat → Nat → σ → σ
  | _, 0, s => s
  | i, fuel + 1, s => loopFrom body (i + 1) fuel (body i s)

/-- The loop `for (i = lo; i < hi; i++) body`. -/
def forLoop {σ : Type} (lo hi : Nat) (body : Nat → σ → σ) (s : σ) : σ :=
  loopFrom body lo (hi - lo) s

/-- The call `memcpy (dst[i], src, len * sizeof(float))`. -/
def memcpy (dst : Frame α) (i : Nat) (src : Nat → α) (len : Nat) : Frame α :=
  fun c t => if c = i ∧ t < len then src t else dst c t

/-- The call `memset (dst[i], 0, len * sizeof(float))`. -/
def memset0 (dst : Frame α) (i : Nat) (len : Nat) : Frame α :=
  fun c t => if c = i ∧ t < len then 0 else dst c t

/-- The assignment `buf[ch][i] = v`. -/
def store (buf : Frame α) (ch i : Nat) (v : α) : Frame α :=
  fun c t => if c = ch ∧ t = i then v else buf c t

/-- The external BLAS routine `cblas_sgemm (CblasRowMajor, CblasNoTrans,
CblasNoTrans, M, N, K, alpha, A, K, B, N, beta, C, N)`, as the exact row-major
product `C := alpha * A * B + beta * C` on the `M x N` block of `C`. -/
def cblas_sgemm (M N K : Nat) (alpha : α) (A B : Frame α) (beta : α) (C : Frame α) : Frame α :=
  fun i t =>
    if i < M ∧ t < N then
      alpha * (∑ j in Finset.range K, A i j * B j t) + beta * C i t
    else C i t

/-- The preparation loop `for (n = 0; n < SH_ORDER + 2; n++) o[n] = n*n;` on the
local array `int o[SH_ORDER+2]` (initial contents taken as zero). -/
def prep_o (E : Env α) : List Nat :=
  forLoop 0 (E.SH_ORDER + 2) (fun n o => o.set n (n * n)) (List.replicate (E.SH_ORDER + 2) 0)

/-- The `NORM_SN3D` loop before the rotation:
`outputFrameTD[ch][i] *= sqrtf (2.0f * (float) n + 1.0f)` over the bands. -/
def convertToN3D (E : Env α) (o : List Nat) (buf : Frame α) : Frame α :=
  forLoop 0 (E.SH_ORDER + 1) (fun n b =>
    forLoop (o.getD n 0) (o.getD (n + 1) 0) (fun ch b =>
      forLoop 0 E.FRAME_SIZE (fun i b =>
        store b ch i (b ch i * E.sqrtf (2 * (n : α) + 1))) b) b) buf

/-- The `NORM_SN3D` loop after the rotation:
`outputFrameTD[ch][i] /= sqrtf (2.0f * (float) n + 1.0f)` over the bands. -/
def convertToSN3D (E : Env α) (o : List Nat) (buf : Frame α) : Frame α :=
  forLoop 0 (E.SH_ORDER + 1) (fun n b =>
    forLoop (o.getD n 0) (o.getD (n + 1) 0) (fun ch b =>
      forLoop 0 E.FRAME_SIZE (fun i b =>
        store b ch i (b ch i / E.sqrtf (2 * (n : α) + 1))) b) b) buf

/-- The loop headers of the two `NORM_SN3D` loop nests,
`for (n = 0; n < SH_ORDER + 1; n++) for (ch = o[n]; ch < o[n+1]; ch++)`, with a
body that records the pair `(n, ch)` it is entered with: the visits of the
nest, in order. -/
def bandVisits (E : Env α) (o : List Nat) : List (Nat × Nat) :=
  forLoop 0 (E.SH_ORDER + 1) (fun n acc =>
    forLoop (o.getD n 0) (o.getD (n + 1) 0) (fun ch acc => acc ++ [(n, ch)]) acc) []

/-- The function `rotator_create`: `malloc` either fails (`none`, nothing is
created) or returns a block of arbitrary contents, whose user parameters are
then set to their defaults. -/
def rotator_create (E : Env α) (malloc : Option (rotator_data α)) : Option (rotator_data α) :=
  match malloc with
  | none => none
  | some pData =>
    some { pData with
      yaw := 0, pitch := 0, roll := 0,
      bFlipYaw := 0, bFlipPitch := 0, bFlipRoll := 0,
      chOrdering := E.CH_ACN, norm := E.NORM_N3D }

/-- The function `rotator_init`: an empty body. -/
def rotator_init (pData : rotator_data α) (_sampleRate : Int) : rotator_data α := pData

/-- The function `rotator_process`: the state after the call and the host
output buffers after the call. -/
def rotator_process (E : Env α) (pData : rotator_data α) (inputs outputs : Frame α)
    (nInputs nOutputs nSamples isPlaying : Int) : rotator_data α × Frame α :=
  if nSamples = (E.FRAME_SIZE : Int) ∧ isPlaying ≠ 0 then
    /- prep -/
    let o := prep_o E
    let _chOrdering := pData.chOrdering
    let norm := pData.norm
    let iEnd := (MIN (NUM_SH_SIGNALS E : Int) nInputs).toNat
    let inF := forLoop 0 iEnd (fun i f => memcpy f i (inputs i) E.FRAME_SIZE) pData.inputFrameTD
    let inF := forLoop iEnd (NUM_SH_SIGNALS E) (fun i f => memset0 f i E.FRAME_SIZE) inF
    /- account for norm scheme -/
    let outF :=
      if norm = E.NORM_N3D then pData.outputFrameTD
      else if norm = E.NORM_SN3D then convertToN3D E o pData.outputFrameTD
      else pData.outputFrameTD
    /- calculate rotation matrix -/
    let Rxyz := E.yawPitchRoll2Rzyx pData.yaw pData.pitch pData.roll
    let M_rot := E.getSHrotMtxReal Rxyz E.SH_ORDER
    /- apply rotation (assumes ACN/N3D) -/
    let outF := cblas_sgemm (NUM_SH_SIGNALS E) E.FRAME_SIZE (NUM_SH_SIGNALS E) 1 M_rot inF 0 outF
    /- account for norm scheme -/
    let outF :=
      if norm = E.NORM_N3D then outF
      else if norm = E.NORM_SN3D then convertToSN3D E o outF
      else outF
    let oEnd := (MIN (NUM_SH_SIGNALS E : Int) nOutputs).toNat
    let outs := forLoop 0 oEnd (fun i f => memcpy f i (outF i) E.FRAME_SIZE) outputs
    let outs := forLoop oEnd nOutputs.toNat (fun i f => memset0 f i E.FRAME_SIZE) outs
    ({ pData with inputFrameTD := inF, outputFrameTD := outF }, outs)
  else
    (pData, forLoop 0 nOutputs.toNat (fun i f => memset0 f i E.FRAME_SIZE) outputs)

/-- The function `rotator_setYaw`. -/
def rotator_setYaw (E : Env α) (pData : rotator_data α) (newYaw : α) : rotator_data α :=
  { pData with yaw := if pData.bFlipYaw = 1 then -DEG2RAD E newYaw else DEG2RAD E newYaw }

/-- The function `rotator_setPitch`. -/
def rotator_setPitch (E : Env α) (pData : rotator_data α) (newPitch : α) : rotator_data α :=
  { pData with pitch := if pData.bFlipPitch = 1 then -DEG2RAD E newPitch else DEG2RAD E newPitch }

/-- The function `rotator_setRoll`. -/
def rotator_setRoll (E : Env α) (pData : rotator_data α) (newRoll : α) : rotator_data α :=
  { pData with roll := if pData.bFlipRoll = 1 then -DEG2RAD E newRoll else DEG2RAD E newRoll }

/-- The function `rotator_getYaw`. -/
def rotator_getYaw (E : Env α) (pData : rotator_data α) : α :=
  if pData.bFlipYaw = 1 then -RAD2DEG E pData.yaw else RAD2DEG E pData.yaw

/-- The function `rotator_getPitch`. -/
def rotator_getPitch (E : Env α) (pData : rotator_data α) : α :=
  if pData.bFlipPitch = 1 then -RAD2DEG E pData.pitch else RAD2DEG E pData.pitch

/-- The function `rotator_getRoll`. -/
def rotator_getRoll (E : Env α) (pData : rotator_data α) : α :=
  if pData.bFlipRoll = 1 then -RAD2DEG E pData.roll else RAD2DEG E pData.roll

/-- The function `rotator_setFlipYaw`. -/
def rotator_setFlipYaw (E : Env α) (pData : rotator_data α) (newState : Int) : rotator_data α :=
  if newState ≠ pData.bFlipYaw then
    let p := { pData with bFlipYaw := newState }
    rotator_setYaw E p (-rotator_getYaw E p)
  else pData

/-- The function `rotator_setFlipPitch`. -/
def rotator_setFlipPitch (E : Env α) (pData : rotator_data α) (newState : Int) : rotator_data α :=
  if newState ≠ pData.bFlipPitch then
    let p := { pData with bFlipPitch := newState }
    rotator_setPitch E p (-rotator_getPitch E p)
  else pData

/-- The function `rotator_setFlipRoll`. -/
def rotator_setFlipRoll (E : Env α) (pData : rotator_data α) (newState : Int) : rotator_data α :=
  if newState ≠ pData.bFlipRoll then
    let p := { pData with bFlipRoll := newState }
    rotator_setRoll E p (-rotator_getRoll E p)
  else pData

/-- The function `rotator_setChOrder`. -/
def rotator_setChOrder (pData : rotator_data α) (newOrder : Int) : rotator_data α :=
  { pData with chOrdering := newOrder }

/-- The function `rotator_setNormType`. -/
def rotator_setNormType (pData : rotator_data α) (newType : Int) : rotator_data α :=
  { pData with norm := newType }

/-- The function `rotator_getFlipYaw`. -/
def rotator_getFlipYaw (pData : rotator_data α) : Int := pData.bFlipYaw

/-- The function `rotator_getFlipPitch`. -/
def rotator_getFlipPitch (pData : rotator_data α) : Int := pData.bFlipPitch

/-- The function `rotator_getFlipRoll`. -/
def rotator_getFlipRoll (pData : rotator_data α) : Int := pData.bFlipRoll

/-- The function `rotator_getChOrder`. -/
def rotator_getChOrder (pData : rotator_data α) : Int := pData.chOrdering

/-- The function `rotator_getNormType`. -/
def rotator_getNormType (pData : rotator_data α) : Int := pData.norm

/-- An environment for concrete runs: order 1 (four SH channels), frames of two
samples, and collaborators that return identity matrices (no rotation); `PI`
and `sqrtf` are supplied by the caller. -/
def identityEnv (PI : α) (sqrtf : α → α) : Env α :=
  { SH_ORDER := 1, FRAME_SIZE := 2, CH_ACN := 1, NORM_N3D := 1, NORM_SN3D := 2,
    PI := PI, sqrtf := sqrtf,
    yawPitchRoll2Rzyx := fun _ _ _ i j => if i = j then 1 else 0,
    getSHrotMtxReal := fun _ _ i j => if i = j then 1 else 0 }

/-- A state for concrete runs: the given angles (radians), yaw flip flag and
normalization, and frame buffers that hold `stale` everywhere. -/
def sampleState (yaw pitch roll : α) (bFlipYaw norm : Int) (stale : α) : rotator_data α :=
  { inputFrameTD := fun _ _ => stale, outputFrameTD := fun _ _ => stale,
    yaw := yaw, pitch := pitch, roll := roll,
    bFlipYaw := bFlipYaw, bFlipPitch := 0, bFlipRoll := 0,
    chOrdering := 1, norm := norm }

/-- A host buffer for concrete runs: channel `c` holds `c + 1` at every sample. -/
def rampFrame : Frame α := fun c _ => (c : α) + 1

/-- A host buffer for concrete runs that holds `v` everywhere. -/
def constFrame (v : α) : Frame α := fun _ _ => v

end Model

/-! ### The angle functions in binary32

The angle fields are C `float`s. Here the same functions are embedded with the
arithmetic of the code: every multiplication and division rounds its exact
result to binary32 (negation is exact). A binary32 value is the rational it
stands for. -/

namespace Binary32

/-- Rounding of a rational to the nearest integer, ties to the even one. -/
def roundHalfEven (q : ℚ) : ℤ :=
  if q - ⌊q⌋ < 1 / 2 then ⌊q⌋
  else if 1 / 2 < q - ⌊q⌋ then ⌊q⌋ + 1
  else if ⌊q⌋ % 2 = 0 then ⌊q⌋ else ⌊q⌋ + 1

/-- The binary32 value of an exact result: 24 significant bits, round to
nearest, ties to even, exponent not below -126 (subnormals); overflow to
infinity is not modelled. -/
def roundFloat (q : ℚ) : ℚ :=
  if q = 0 then 0
  else
    (roundHalfEven (q / 2 ^ (max (Int.log 2 |q|) (-126) - 23)) : ℚ)
      * 2 ^ (max (Int.log 2 |q|) (-126) - 23)

/-- Modelled from the spec: the constant `PI` of the absent header as a `float`,
the binary32 value nearest to π (bits `0x40490fdb`). -/
def PI : ℚ := 13176795 / 4194304

/-- Modelled from the spec: the macro `DEG2RAD` of the absent header
(`toRadians`), `x * PI / 180.0f` on `float`s, each operation rounded to
binary32. -/
def DEG2RAD (x : ℚ) : ℚ := roundFloat (roundFloat (x * PI) / 180)

/-- Modelled from the spec: the macro `RAD2DEG` of the absent header
(`toDegrees`), `x * 180.0f / PI` on `float`s, each operation rounded to
binary32. -/
def RAD2DEG (x : ℚ) : ℚ := roundFloat (roundFloat (x * 180) / PI)

/-- The function `rotator_setYaw` on `float`s. -/
def rotator_setYaw (pData : rotator_data ℚ) (newYaw : ℚ) : rotator_data ℚ :=
  { pData with yaw := if pData.bFlipYaw = 1 then -DEG2RAD newYaw else DEG2RAD newYaw }

/-- The function `rotator_getYaw` on `float`s. -/
def rotator_getYaw (pData : rotator_data ℚ) : ℚ :=
  if pData.bFlipYaw = 1 then -RAD2DEG pData.yaw else RAD2DEG pData.yaw

/-- The function `rotator_setFlipYaw` on `float`s. -/
def rotator_setFlipYaw (pData : rotator_data ℚ) (newState : Int) : rotator_data ℚ :=
  if newState ≠ pData.bFlipYaw then
    let p := { pData with bFlipYaw := newState }
    rotator_setYaw p (-rotator_getYaw p)
  else pData

end Binary32

/-! ## Loop lemmas -/

section Loops

/-- A loop whose rounds all leave an observation of the state alone leaves it alone. -/
theorem loopFrom_obs_untouched {σ β : Type} (obs : σ → β) (body : Nat → σ → σ) :
    ∀ (k lo : Nat) (s : σ),
      (∀ i, lo ≤ i → i < lo + k → ∀ s, obs (body i s) = obs s) →
      obs (loopFrom body lo k s) = obs s
  | 0, _, _, _ => rfl
  | k + 1, lo, s, h => by
      simp only [loopFrom]
      rw [loopFrom_obs_untouched obs body k (lo + 1) _
        (fun i h1 h2 => h i (by omega) (by omega))]
      exact h lo le_rfl (by omega) s

/-- A loop in which exactly round `i0` changes an observation of the state, by
`G`, changes it by `G`. -/
theorem loopFrom_obs_once {σ β : Type} (obs : σ → β) (body : Nat → σ → σ) (G : β → β)
    (i0 : Nat) (hat : ∀ s, obs (body i0 s) = G (obs s)) :
    ∀ (k lo : Nat) (s : σ), lo ≤ i0 → i0 < lo + k →
      (∀ i, lo ≤ i → i < lo + k → i ≠ i0 → ∀ s, obs (body i s) = obs s) →
      obs (loopFrom body lo k s) = G (obs s)
  | 0, _, _, h1, h2, _ => by omega
  | k + 1, lo, s, h1, h2, h => by
      simp only [loopFrom]
      by_cases hlo : lo = i0
      · subst hlo
        rw [loopFrom_obs_untouched obs body k (lo + 1) _
          (fun i h3 h4 => h i (by omega) (by omega) (by omega))]
        exact hat s
      · rw [loopFrom_obs_once obs body G i0 hat k (lo + 1) _ (by omega) (by omega)
          (fun i h3 h4 h5 => h i (by omega) (by omega) h5)]
        rw [h lo le_rfl (by omega) hlo]

/-- Rows `lo .. hi-1` are copied from `src`, everything else is kept. -/
theorem forLoop_memcpy {α : Type} (src : Frame α) (len lo hi : Nat) (f : Frame α) (c t : Nat) :
    forLoop lo hi (fun i f => memcpy f i (src i) len) f c t
      = if lo ≤ c ∧ c < hi ∧ t < len then src c t else f c t := by
  unfold forLoop
  by_cases hc : lo ≤ c ∧ c < hi ∧ t < len
  · rw [if_pos hc]
    exact loopFrom_obs_once (fun g : Frame α => g c t) _ (fun _ => src c t) c
      (fun s => by simp [memcpy, hc.2.2]) _ _ f hc.1 (by omega)
      (fun i _ _ hi s => by simp [memcpy, Ne.symm hi])
  · rw [if_neg hc]
    exact loopFrom_obs_untouched (fun g : Frame α => g c t) _ _ _ f
      (fun i h1 h2 s => by
        simp only [memcpy]
        rw [if_neg]
        rintro ⟨rfl, h3⟩
        exact hc ⟨h1, by omega, h3⟩)

/-- Rows `lo .. hi-1` are zeroed, everything else is kept. -/
theorem forLoop_memset0 {α : Type} [LinearOrderedField α] (len lo hi : Nat) (f : Frame α)
    (c t : Nat) :
    forLoop lo hi (fun i f => memset0 f i len) f c t
      = if lo ≤ c ∧ c < hi ∧ t < len then 0 else f c t := by
  unfold forLoop
  by_cases hc : lo ≤ c ∧ c < hi ∧ t < len
  · rw [if_pos hc]
    exact loopFrom_obs_once (fun g : Frame α => g c t) _ (fun _ => 0) c
      (fun s => by simp [memset0, hc.2.2]) _ _ f hc.1 (by omega)
      (fun i _ _ hi s => by simp [memset0, Ne.symm hi])
  · rw [if_neg hc]
    exact loopFrom_obs_untouched (fun g : Frame α => g c t) _ _ _ f
      (fun i h1 h2 s => by
        simp only [memset0]
        rw [if_neg]
        rintro ⟨rfl, h3⟩
        exact hc ⟨h1, by omega, h3⟩)

end Loops

/-! ## The band loops -/

section Bands

/-- The squares loop: the length of the array is kept and entry `n` becomes `n*n`. -/
theorem loop_o_obs (m n : Nat) (l : List Nat) :
    (fun o : List Nat => (o.length, o.getD n 0))
        (forLoop 0 m (fun n o => o.set n (n * n)) l)
      = (l.length, if n < m ∧ n < l.length then n * n else l.getD n 0) := by
  by_cases hn : n < m
  · have := loopFrom_obs_once (fun o : List Nat => (o.length, o.getD n 0))
      (fun n o => o.set n (n * n))
      (fun p => (p.1, if n < p.1 then n * n else p.2)) n
      (fun s => by
        by_cases h : n < s.length
        · simp [List.getD_eq_getElem?_getD, h]
        · simp [List.getD_eq_getElem?_getD, List.getElem?_set, h,
            List.getElem?_eq_none (not_lt.mp h)]) (m - 0) 0 l (Nat.zero_le _) (by omega)
      (fun i _ _ hi s => by
        simp [List.getD_eq_getElem?_getD, List.getElem?_set, hi])
    exact this.trans (by simp [hn])
  · have := loopFrom_obs_untouched (fun o : List Nat => (o.length, o.getD n 0))
      (fun n o => o.set n (n * n)) (m - 0) 0 l
      (fun i _ h2 s => by
        have : i ≠ n := by omega
        simp [List.getD_eq_getElem?_getD, List.getElem?_set, this])
    exact this.trans (by simp [hn])

/-- The array `o` has `SH_ORDER + 2` entries. -/
theorem prep_o_length {α : Type} [LinearOrderedField α] (E : Env α) :
    (prep_o E).length = E.SH_ORDER + 2 := by
  have := congrArg Prod.fst (loop_o_obs (E.SH_ORDER + 2) 0 (List.replicate (E.SH_ORDER + 2) 0))
  simpa [prep_o] using this

/-- Entry `n` of the array `o` is `n*n`. -/
theorem prep_o_getD {α : Type} [LinearOrderedField α] (E : Env α) (n : Nat)
    (hn : n < E.SH_ORDER + 2) : (prep_o E).getD n 0 = n * n := by
  have := congrArg Prod.snd (loop_o_obs (E.SH_ORDER + 2) n (List.replicate (E.SH_ORDER + 2) 0))
  simpa [prep_o, hn] using this

/-- The innermost loop over the samples of one channel. -/
theorem forLoop_samples {α : Type} (g : α → α) (ch len : Nat) (b : Frame α) (c t : Nat) :
    forLoop 0 len (fun i b => store b ch i (g (b ch i))) b c t
      = if c = ch ∧ t < len then g (b c t) else b c t := by
  by_cases hc : c = ch ∧ t < len
  · rw [if_pos hc]
    obtain ⟨rfl, ht⟩ := hc
    exact loopFrom_obs_once (fun f : Frame α => f c t) _ g t
      (fun s => by simp [store]) _ _ b (Nat.zero_le _) (by omega)
      (fun i _ _ hi s => by simp [store, Ne.symm hi])
  · rw [if_neg hc]
    exact loopFrom_obs_untouched (fun f : Frame α => f c t) _ _ _ b
      (fun i _ h2 s => by
        simp only [store]
        rw [if_neg]
        rintro ⟨rfl, rfl⟩
        exact hc ⟨rfl, by omega⟩)

/-- The loop over the channels of one band. -/
theorem forLoop_channels {α : Type} (g : α → α) (lo hi len : Nat) (b : Frame α) (c t : Nat) :
    forLoop lo hi (fun ch b => forLoop 0 len (fun i b => store b ch i (g (b ch i))) b) b c t
      = if lo ≤ c ∧ c < hi ∧ t < len then g (b c t) else b c t := by
  by_cases hc : lo ≤ c ∧ c < hi ∧ t < len
  · rw [if_pos hc]
    exact loopFrom_obs_once (fun f : Frame α => f c t) _ g c
      (fun s => by
        show forLoop 0 len _ s c t = _
        rw [forLoop_samples]; simp [hc.2.2]) _ _ b hc.1 (by omega)
      (fun i _ _ hi s => by
        show forLoop 0 len _ s c t = _
        rw [forLoop_samples]; simp [Ne.symm hi])
  · rw [if_neg hc]
    exact loopFrom_obs_untouched (fun f : Frame α => f c t) _ _ _ b
      (fun i h1 h2 s => by
        show forLoop 0 len _ s c t = _
        rw [forLoop_samples, if_neg]
        rintro ⟨rfl, h3⟩
        exact hc ⟨h1, by omega, h3⟩)

/-- The loop over the bands: channel `c` is changed once, in band `Nat.sqrt c`. -/
theorem forLoop_bands {α : Type} (g : Nat → α → α) (order len : Nat) (o : List Nat)
    (ho : ∀ n, n < order + 2 → o.getD n 0 = n * n) (b : Frame α) (c t : Nat) :
    forLoop 0 (order + 1) (fun n b =>
      forLoop (o.getD n 0) (o.getD (n + 1) 0) (fun ch b =>
        forLoop 0 len (fun i b => store b ch i (g n (b ch i))) b) b) b c t
      = if c < (order + 1) * (order + 1) ∧ t < len then g (Nat.sqrt c) (b c t) else b c t := by
  by_cases hc : c < (order + 1) * (order + 1) ∧ t < len
  · rw [if_pos hc]
    have hs : Nat.sqrt c < order + 1 := Nat.sqrt_lt.mpr hc.1
    exact loopFrom_obs_once (fun f : Frame α => f c t) _ (g (Nat.sqrt c)) (Nat.sqrt c)
      (fun s => by
        show forLoop _ _ _ s c t = _
        rw [forLoop_channels (g (Nat.sqrt c)), ho _ (by omega), ho _ (by omega),
          if_pos ⟨Nat.sqrt_le c, Nat.lt_succ_sqrt c, hc.2⟩]) _ _ b (Nat.zero_le _) (by omega)
      (fun i _ h2 hi s => by
        show forLoop _ _ _ s c t = _
        rw [forLoop_channels (g i), ho _ (by omega), ho _ (by omega), if_neg]
        rintro ⟨h3, h4, _⟩
        exact hi (Nat.eq_sqrt.mpr ⟨h3, h4⟩))
  · rw [if_neg hc]
    exact loopFrom_obs_untouched (fun f : Frame α => f c t) _ _ _ b
      (fun i _ h2 s => by
        show forLoop _ _ _ s c t = _
        rw [forLoop_channels (g i), ho _ (by omega), ho _ (by omega), if_neg]
        rintro ⟨_, h4, h5⟩
        apply hc
        refine ⟨lt_of_lt_of_le h4 (Nat.mul_le_mul ?_ ?_), h5⟩ <;> omega)

end Bands
/-! ## The frame processor, branch by branch -/

section Process

variable {α : Type} [LinearOrderedField α]

/-- A channel index is below `MIN (a, n)` clipped at zero iff it is below both. -/
theorem lt_MIN_toNat (a : Nat) (n : Int) (c : Nat) :
    c < (MIN (a : Int) n).toNat ↔ c < a ∧ (c : Int) < n := by
  unfold MIN
  split <;> omega

/-- The silence branch of `rotator_process`. -/
theorem process_silence (E : Env α) (pData : rotator_data α) (inputs outputs : Frame α)
    (nInputs nOutputs nSamples isPlaying : Int)
    (h : ¬(nSamples = (E.FRAME_SIZE : Int) ∧ isPlaying ≠ 0)) :
    rotator_process E pData inputs outputs nInputs nOutputs nSamples isPlaying
      = (pData, forLoop 0 nOutputs.toNat (fun i f => memset0 f i E.FRAME_SIZE) outputs) := by
  unfold rotator_process
  rw [if_neg h]

/-- Ingest on the main path: the frame `inputFrameTD` after the call. -/
theorem process_main_inputFrame (E : Env α) (pData : rotator_data α) (inputs outputs : Frame α)
    (nInputs nOutputs nSamples isPlaying : Int)
    (h : nSamples = (E.FRAME_SIZE : Int) ∧ isPlaying ≠ 0) (c t : Nat) :
    (rotator_process E pData inputs outputs nInputs nOutputs nSamples isPlaying).1.inputFrameTD c t
      = if c < NUM_SH_SIGNALS E ∧ t < E.FRAME_SIZE then
          (if (c : Int) < nInputs then inputs c t else 0)
        else pData.inputFrameTD c t := by
  unfold rotator_process
  rw [if_pos h]
  simp only [forLoop_memset0, forLoop_memcpy]
  have hm := lt_MIN_toNat (NUM_SH_SIGNALS E) nInputs c
  generalize (MIN (NUM_SH_SIGNALS E : Int) nInputs).toNat = iEnd at hm ⊢
  by_cases h1 : c < NUM_SH_SIGNALS E <;> by_cases h2 : t < E.FRAME_SIZE <;>
    by_cases h3 : (c : Int) < nInputs <;> by_cases h4 : c < iEnd <;>
    simp [h1, h2, h3, h4] <;> omega

/-- Normalize-in on `outputFrameTD`, in closed form. -/
theorem convertToN3D_apply (E : Env α) (b : Frame α) (c t : Nat) :
    convertToN3D E (prep_o E) b c t
      = if c < NUM_SH_SIGNALS E ∧ t < E.FRAME_SIZE then
          b c t * E.sqrtf (2 * ((Nat.sqrt c : Nat) : α) + 1)
        else b c t :=
  forLoop_bands (fun n x => x * E.sqrtf (2 * (n : α) + 1)) E.SH_ORDER E.FRAME_SIZE (prep_o E)
    (prep_o_getD E) b c t

/-- Normalize-out on `outputFrameTD`, in closed form. -/
theorem convertToSN3D_apply (E : Env α) (b : Frame α) (c t : Nat) :
    convertToSN3D E (prep_o E) b c t
      = if c < NUM_SH_SIGNALS E ∧ t < E.FRAME_SIZE then
          b c t / E.sqrtf (2 * ((Nat.sqrt c : Nat) : α) + 1)
        else b c t :=
  forLoop_bands (fun n x => x / E.sqrtf (2 * (n : α) + 1)) E.SH_ORDER E.FRAME_SIZE (prep_o E)
    (prep_o_getD E) b c t

/-- The rotated frame on the main path: `outputFrameTD` after the call, on the
`NUM_SH_SIGNALS x FRAME_SIZE` block. -/
theorem process_main_outputFrame (E : Env α) (pData : rotator_data α) (inputs outputs : Frame α)
    (nInputs nOutputs nSamples isPlaying : Int)
    (h : nSamples = (E.FRAME_SIZE : Int) ∧ isPlaying ≠ 0) (c t : Nat)
    (hc : c < NUM_SH_SIGNALS E) (ht : t < E.FRAME_SIZE) :
    (rotator_process E pData inputs outputs nInputs nOutputs nSamples isPlaying).1.outputFrameTD c t
      = if pData.norm ≠ E.NORM_N3D ∧ pData.norm = E.NORM_SN3D then
          (∑ j in Finset.range (NUM_SH_SIGNALS E),
            E.getSHrotMtxReal (E.yawPitchRoll2Rzyx pData.yaw pData.pitch pData.roll) E.SH_ORDER c j
              * (if (j : Int) < nInputs then inputs j t else 0))
            / E.sqrtf (2 * ((Nat.sqrt c : Nat) : α) + 1)
        else
          ∑ j in Finset.range (NUM_SH_SIGNALS E),
            E.getSHrotMtxReal (E.yawPitchRoll2Rzyx pData.yaw pData.pitch pData.roll) E.SH_ORDER c j
              * (if (j : Int) < nInputs then inputs j t else 0) := by
  have hin := process_main_inputFrame E pData inputs outputs nInputs nOutputs nSamples isPlaying h
  have hsum : ∀ C : Frame α,
      cblas_sgemm (NUM_SH_SIGNALS E) E.FRAME_SIZE (NUM_SH_SIGNALS E) 1
        (E.getSHrotMtxReal (E.yawPitchRoll2Rzyx pData.yaw pData.pitch pData.roll) E.SH_ORDER)
        (rotator_process E pData inputs outputs nInputs nOutputs nSamples isPlaying).1.inputFrameTD
        0 C c t
      = ∑ j in Finset.range (NUM_SH_SIGNALS E),
          E.getSHrotMtxReal (E.yawPitchRoll2Rzyx pData.yaw pData.pitch pData.roll) E.SH_ORDER c j
            * (if (j : Int) < nInputs then inputs j t else 0) := by
    intro C
    simp only [cblas_sgemm, hc, ht, and_self, if_true, one_mul, zero_mul, add_zero]
    refine Finset.sum_congr rfl (fun j hj => ?_)
    rw [hin j t, if_pos ⟨Finset.mem_range.mp hj, ht⟩]
  unfold rotator_process at hsum ⊢
  simp only [if_pos h] at hsum ⊢
  by_cases h1 : pData.norm = E.NORM_N3D
  · simp only [h1, if_true, ne_eq, not_true_eq_false, false_and, if_false] at hsum ⊢
    exact hsum _
  · by_cases h2 : pData.norm = E.NORM_SN3D
    · have h3 : ¬E.NORM_SN3D = E.NORM_N3D := h2 ▸ h1
      simp only [h2, h3, if_true, if_false, ne_eq, not_false_eq_true, and_self] at hsum ⊢
      rw [convertToSN3D_apply, if_pos ⟨hc, ht⟩, hsum]
    · simp only [h1, h2, if_false, and_false] at hsum ⊢
      exact hsum _

/-- Egress on the main path: the host output buffers after the call. -/
theorem process_main_outputs (E : Env α) (pData : rotator_data α) (inputs outputs : Frame α)
    (nInputs nOutputs nSamples isPlaying : Int)
    (h : nSamples = (E.FRAME_SIZE : Int) ∧ isPlaying ≠ 0) (c t : Nat) :
    (rotator_process E pData inputs outputs nInputs nOutputs nSamples isPlaying).2 c t
      = if (c : Int) < nOutputs ∧ t < E.FRAME_SIZE then
          (if c < NUM_SH_SIGNALS E then
            (rotator_process E pData inputs outputs nInputs nOutputs nSamples
              isPlaying).1.outputFrameTD c t
           else 0)
        else outputs c t := by
  unfold rotator_process
  simp only [if_pos h, forLoop_memset0, forLoop_memcpy]
  have hm := lt_MIN_toNat (NUM_SH_SIGNALS E) nOutputs c
  generalize (MIN (NUM_SH_SIGNALS E : Int) nOutputs).toNat = oEnd at hm ⊢
  by_cases h1 : c < NUM_SH_SIGNALS E <;> by_cases h2 : t < E.FRAME_SIZE <;>
    by_cases h3 : (c : Int) < nOutputs <;> by_cases h4 : c < oEnd <;>
    simp [h1, h2, h3, h4] <;> omega

/-- The host output buffers on the silence path. -/
theorem process_silence_outputs (E : Env α) (pData : rotator_data α) (inputs outputs : Frame α)
    (nInputs nOutputs nSamples isPlaying : Int)
    (h : ¬(nSamples = (E.FRAME_SIZE : Int) ∧ isPlaying ≠ 0)) (c t : Nat) :
    (rotator_process E pData inputs outputs nInputs nOutputs nSamples isPlaying).2 c t
      = if (c : Int) < nOutputs ∧ t < E.FRAME_SIZE then 0 else outputs c t := by
  rw [process_silence E pData inputs outputs nInputs nOutputs nSamples isPlaying h]
  simp only [forLoop_memset0]
  by_cases h3 : (c : Int) < nOutputs <;> by_cases h4 : c < nOutputs.toNat <;>
    simp [h3, h4] <;> omega

end Process


/-! ## Properties of the frame processor -/

section ProcessClaims

variable {α : Type} [LinearOrderedField α]

/-- C1: on the silence path (`nSamples` differs from `FRAME_SIZE`, or `isPlaying`
is 0) every requested output channel `0 ≤ i < nOutputs` holds zero at each of
its `FRAME_SIZE` samples after `rotator_process`, for every state and every
input content. -/
theorem silence_path_zero_fills (E : Env α) (pData : rotator_data α)
    (inputs outputs : Frame α) (nInputs nOutputs nSamples isPlaying : Int)
    (h : nSamples ≠ (E.FRAME_SIZE : Int) ∨ isPlaying = 0)
    (i t : Nat) (hi : (i : Int) < nOutputs) (ht : t < E.FRAME_SIZE) :
    (rotator_process E pData inputs outputs nInputs nOutputs nSamples isPlaying).2 i t = 0 := by
  have hs : ¬(nSamples = (E.FRAME_SIZE : Int) ∧ isPlaying ≠ 0) := by
    rintro ⟨h1, h2⟩
    rcases h with h | h
    · exact h h1
    · exact h2 h
  rw [process_silence_outputs E pData inputs outputs nInputs nOutputs nSamples isPlaying hs,
    if_pos ⟨hi, ht⟩]

/-- Witness of C1: a playing block of three samples against frames of two, and
a stopped block of the right length, six output channels requested. -/
theorem silence_path_zero_fills_witness :
    ((3 : Int) ≠ ((identityEnv Real.pi Real.sqrt).FRAME_SIZE : Int) ∨ (1 : Int) = 0)
      ∧ (rotator_process (identityEnv Real.pi Real.sqrt) (sampleState 0 0 0 0 1 7)
          rampFrame (constFrame 5) 4 6 3 1).2 5 1 = 0 :=
  ⟨Or.inl (by decide),
    silence_path_zero_fills (identityEnv Real.pi Real.sqrt) (sampleState 0 0 0 0 1 7)
      rampFrame (constFrame 5) 4 6 3 1 (Or.inl (by decide)) 5 1 (by decide) (by decide)⟩

/-- C2: on the main path under `NORM_N3D`, with `M` the matrix returned by
`getSHrotMtxReal (yawPitchRoll2Rzyx (yaw, pitch, roll), SH_ORDER)`, every output
sample is `outputs[i][t] = Σ_{j < NUM_SH_SIGNALS} M[i][j] * x_j[t]` for
`i < min (NUM_SH_SIGNALS, nOutputs)` and `t < FRAME_SIZE`, where `x_j` is
`inputs[j]` for `j < min (NUM_SH_SIGNALS, nInputs)` and zero otherwise. -/
theorem main_path_N3D_is_matrix_product (E : Env α) (pData : rotator_data α)
    (inputs outputs : Frame α) (nInputs nOutputs nSamples isPlaying : Int)
    (hs : nSamples = (E.FRAME_SIZE : Int)) (hp : isPlaying ≠ 0)
    (hn : pData.norm = E.NORM_N3D)
    (i t : Nat) (hi : (i : Int) < MIN (NUM_SH_SIGNALS E : Int) nOutputs)
    (ht : t < E.FRAME_SIZE) :
    (rotator_process E pData inputs outputs nInputs nOutputs nSamples isPlaying).2 i t
      = ∑ j in Finset.range (NUM_SH_SIGNALS E),
          E.getSHrotMtxReal (E.yawPitchRoll2Rzyx pData.yaw pData.pitch pData.roll) E.SH_ORDER i j
            * (if (j : Int) < MIN (NUM_SH_SIGNALS E : Int) nInputs then inputs j t else 0) := by
  have hi2 : i < NUM_SH_SIGNALS E ∧ (i : Int) < nOutputs := by
    unfold MIN at hi; split at hi <;> omega
  rw [process_main_outputs E pData inputs outputs nInputs nOutputs nSamples isPlaying ⟨hs, hp⟩,
    if_pos ⟨hi2.2, ht⟩, if_pos hi2.1,
    process_main_outputFrame E pData inputs outputs nInputs nOutputs nSamples isPlaying ⟨hs, hp⟩
      i t hi2.1 ht,
    if_neg (fun hh => hh.1 hn)]
  refine Finset.sum_congr rfl (fun j hj => ?_)
  have hj2 : j < NUM_SH_SIGNALS E := Finset.mem_range.mp hj
  have : ((j : Int) < MIN (NUM_SH_SIGNALS E : Int) nInputs) ↔ (j : Int) < nInputs := by
    unfold MIN; split <;> omega
  simp only [this]

/-- Witness of C2: order 1, frames of two samples, three input channels and four
output channels, `NORM_N3D`. -/
theorem main_path_N3D_is_matrix_product_witness :
    ((2 : Int) = ((identityEnv Real.pi Real.sqrt).FRAME_SIZE : Int)) ∧ (1 : Int) ≠ 0
      ∧ (sampleState (0 : ℝ) 0 0 0 1 7).norm = (identityEnv Real.pi Real.sqrt).NORM_N3D
      ∧ (rotator_process (identityEnv Real.pi Real.sqrt) (sampleState 0 0 0 0 1 7)
          rampFrame (constFrame 5) 3 4 2 1).2 3 1
        = ∑ j in Finset.range (NUM_SH_SIGNALS (identityEnv Real.pi Real.sqrt)),
            (identityEnv Real.pi Real.sqrt).getSHrotMtxReal
                ((identityEnv Real.pi Real.sqrt).yawPitchRoll2Rzyx 0 0 0) 1 3 j
              * (if (j : Int) < MIN (NUM_SH_SIGNALS (identityEnv Real.pi Real.sqrt) : Int) 3
                  then rampFrame j 1 else 0) :=
  ⟨by decide, by decide, rfl,
    main_path_N3D_is_matrix_product (identityEnv Real.pi Real.sqrt) (sampleState 0 0 0 0 1 7)
      rampFrame (constFrame 5) 3 4 2 1 (by decide) (by decide) rfl 3 1 (by decide) (by decide)⟩

/-- C3 (evaluation of the code): with `NORM_SN3D`, identity collaborators,
order 1 and an input of ones, `rotator_process` puts `1 / sqrt 3` into sample 0 of
output channel 1 (band 1), which is not the input value 1: the scaling by
`sqrt (2n+1)` before the rotation lands in `outputFrameTD`, is overwritten by the
matrix product, and only the division after the rotation reaches the output. -/
theorem SN3D_identity_rotation_divides_band_one :
    (rotator_process (identityEnv Real.pi Real.sqrt) (sampleState 0 0 0 0 2 7)
        (constFrame 1) (constFrame 5) 4 4 2 1).2 1 0 = 1 / Real.sqrt 3
      ∧ (rotator_process (identityEnv Real.pi Real.sqrt) (sampleState 0 0 0 0 2 7)
        (constFrame 1) (constFrame 5) 4 4 2 1).2 1 0 ≠ (constFrame 1 : Frame ℝ) 1 0 := by
  have hval : (rotator_process (identityEnv Real.pi Real.sqrt) (sampleState 0 0 0 0 2 7)
        (constFrame 1) (constFrame 5) 4 4 2 1).2 1 0 = 1 / Real.sqrt 3 := by
    rw [process_main_outputs _ _ _ _ _ _ _ _ ⟨by decide, by decide⟩,
      if_pos ⟨by decide, by decide⟩, if_pos (by decide),
      process_main_outputFrame _ _ _ _ _ _ _ _ ⟨by decide, by decide⟩ 1 0 (by decide) (by decide),
      if_pos ⟨by decide, by decide⟩]
    have h3 : (2 * ((Nat.sqrt 1 : Nat) : ℝ) + 1) = 3 := by
      rw [Nat.sqrt_one]; norm_num
    rw [h3]
    congr 1
    simp [identityEnv, NUM_SH_SIGNALS, constFrame, sampleState, Finset.sum_range_succ]
  refine ⟨hval, ?_⟩
  rw [hval]
  intro h
  have h1 : Real.sqrt 3 = 1 := by
    have hpos : (0 : ℝ) < Real.sqrt 3 := Real.sqrt_pos.mpr (by norm_num)
    simp only [constFrame] at h
    field_simp at h
    linarith
  have h2 : (3 : ℝ) = 1 := by
    have := Real.sq_sqrt (show (0 : ℝ) ≤ 3 by norm_num)
    rw [h1] at this
    linarith
  norm_num at h2

/-- C4: with `NORM_N3D`, zero yaw, pitch and roll, and collaborators that yield
the identity SH rotation matrix for zero angles, the main path of
`rotator_process` outputs the input channel for channel:
`outputs[i][t] = inputs[i][t]` for `i < min (NUM_SH_SIGNALS, nInputs, nOutputs)`
and `t < FRAME_SIZE`. -/
theorem zero_angles_N3D_output_eq_input (E : Env α) (pData : rotator_data α)
    (inputs outputs : Frame α) (nInputs nOutputs nSamples isPlaying : Int)
    (hs : nSamples = (E.FRAME_SIZE : Int)) (hp : isPlaying ≠ 0)
    (hn : pData.norm = E.NORM_N3D)
    (hyaw : pData.yaw = 0) (hpitch : pData.pitch = 0) (hroll : pData.roll = 0)
    (hId : ∀ i j, i < NUM_SH_SIGNALS E → j < NUM_SH_SIGNALS E →
      E.getSHrotMtxReal (E.yawPitchRoll2Rzyx 0 0 0) E.SH_ORDER i j = if i = j then 1 else 0)
    (i t : Nat) (hi : (i : Int) < MIN (MIN (NUM_SH_SIGNALS E : Int) nInputs) nOutputs)
    (ht : t < E.FRAME_SIZE) :
    (rotator_process E pData inputs outputs nInputs nOutputs nSamples isPlaying).2 i t
      = inputs i t := by
  have hi2 : i < NUM_SH_SIGNALS E ∧ (i : Int) < nInputs ∧ (i : Int) < nOutputs := by
    unfold MIN at hi; split at hi <;> split at hi <;> omega
  rw [process_main_outputs E pData inputs outputs nInputs nOutputs nSamples isPlaying ⟨hs, hp⟩,
    if_pos ⟨hi2.2.2, ht⟩, if_pos hi2.1,
    process_main_outputFrame E pData inputs outputs nInputs nOutputs nSamples isPlaying ⟨hs, hp⟩
      i t hi2.1 ht,
    if_neg (fun hh => hh.1 hn), hyaw, hpitch, hroll,
    Finset.sum_eq_single i]
  · rw [hId i i hi2.1 hi2.1, if_pos rfl, if_pos hi2.2.1, one_mul]
  · intro j hj hji
    rw [hId i j hi2.1 (Finset.mem_range.mp hj), if_neg (Ne.symm hji), zero_mul]
  · intro hni
    exact absurd (Finset.mem_range.mpr hi2.1) hni

/-- Witness of C4: order 1, frames of two samples, identity collaborators, all
angles zero, three input and four output channels. -/
theorem zero_angles_N3D_output_eq_input_witness :
    ((2 : Int) = ((identityEnv Real.pi Real.sqrt).FRAME_SIZE : Int)) ∧ (1 : Int) ≠ 0
      ∧ (rotator_process (identityEnv Real.pi Real.sqrt) (sampleState 0 0 0 0 1 7)
          rampFrame (constFrame 5) 3 4 2 1).2 2 1 = (rampFrame : Frame ℝ) 2 1 :=
  ⟨by decide, by decide,
    zero_angles_N3D_output_eq_input (identityEnv Real.pi Real.sqrt) (sampleState 0 0 0 0 1 7)
      rampFrame (constFrame 5) 3 4 2 1 (by decide) (by decide) rfl rfl rfl rfl
      (fun _ _ _ _ => rfl) 2 1 (by decide) (by decide)⟩

/-- C5: egress on the main path, for every `nOutputs`: output channels
`NUM_SH_SIGNALS ≤ i < nOutputs` are all zeros over `FRAME_SIZE` samples, output
channels `i < min (NUM_SH_SIGNALS, nOutputs)` equal row `i` of the rotated
`outputFrameTD`, which holds the product of the SH rotation matrix with the
ingested frame (divided by `sqrtf (2n+1)`, `n` the band of row `i`, under
`NORM_SN3D`), and host channels from `nOutputs` on are left as they were (with
`nOutputs < NUM_SH_SIGNALS` the rows `nOutputs ..` of the rotated frame are
dropped). -/
theorem main_path_egress (E : Env α) (pData : rotator_data α)
    (inputs outputs : Frame α) (nInputs nOutputs nSamples isPlaying : Int)
    (hs : nSamples = (E.FRAME_SIZE : Int)) (hp : isPlaying ≠ 0) :
    (∀ i t : Nat, NUM_SH_SIGNALS E ≤ i → (i : Int) < nOutputs → t < E.FRAME_SIZE →
        (rotator_process E pData inputs outputs nInputs nOutputs nSamples isPlaying).2 i t = 0)
      ∧ (∀ i t : Nat, (i : Int) < MIN (NUM_SH_SIGNALS E : Int) nOutputs → t < E.FRAME_SIZE →
        (rotator_process E pData inputs outputs nInputs nOutputs nSamples isPlaying).2 i t
            = (rotator_process E pData inputs outputs nInputs nOutputs nSamples
                isPlaying).1.outputFrameTD i t
          ∧ (rotator_process E pData inputs outputs nInputs nOutputs nSamples
                isPlaying).1.outputFrameTD i t
            = if pData.norm ≠ E.NORM_N3D ∧ pData.norm = E.NORM_SN3D then
                (∑ j in Finset.range (NUM_SH_SIGNALS E),
                  E.getSHrotMtxReal (E.yawPitchRoll2Rzyx pData.yaw pData.pitch pData.roll)
                      E.SH_ORDER i j
                    * (if (j : Int) < MIN (NUM_SH_SIGNALS E : Int) nInputs
                        then inputs j t else 0))
                  / E.sqrtf (2 * ((Nat.sqrt i : Nat) : α) + 1)
              else
                ∑ j in Finset.range (NUM_SH_SIGNALS E),
                  E.getSHrotMtxReal (E.yawPitchRoll2Rzyx pData.yaw pData.pitch pData.roll)
                      E.SH_ORDER i j
                    * (if (j : Int) < MIN (NUM_SH_SIGNALS E : Int) nInputs
                        then inputs j t else 0))
      ∧ (∀ i t : Nat, nOutputs ≤ (i : Int) →
        (rotator_process E pData inputs outputs nInputs nOutputs nSamples isPlaying).2 i t
          = outputs i t) := by
  refine ⟨fun i t h1 h2 h3 => ?_, fun i t h1 h2 => ⟨?_, ?_⟩, fun i t h1 => ?_⟩
  · rw [process_main_outputs E pData inputs outputs nInputs nOutputs nSamples isPlaying ⟨hs, hp⟩,
      if_pos ⟨h2, h3⟩, if_neg (by omega)]
  · have hi2 : i < NUM_SH_SIGNALS E ∧ (i : Int) < nOutputs := by
      unfold MIN at h1; split at h1 <;> omega
    rw [process_main_outputs E pData inputs outputs nInputs nOutputs nSamples isPlaying ⟨hs, hp⟩,
      if_pos ⟨hi2.2, h2⟩, if_pos hi2.1]
  · have hi2 : i < NUM_SH_SIGNALS E ∧ (i : Int) < nOutputs := by
      unfold MIN at h1; split at h1 <;> omega
    have hpad : ∀ j ∈ Finset.range (NUM_SH_SIGNALS E),
        E.getSHrotMtxReal (E.yawPitchRoll2Rzyx pData.yaw pData.pitch pData.roll) E.SH_ORDER i j
            * (if (j : Int) < nInputs then inputs j t else 0)
          = E.getSHrotMtxReal (E.yawPitchRoll2Rzyx pData.yaw pData.pitch pData.roll)
              E.SH_ORDER i j
            * (if (j : Int) < MIN (NUM_SH_SIGNALS E : Int) nInputs then inputs j t else 0) := by
      intro j hj
      have hj2 : j < NUM_SH_SIGNALS E := Finset.mem_range.mp hj
      have : ((j : Int) < MIN (NUM_SH_SIGNALS E : Int) nInputs) ↔ (j : Int) < nInputs := by
        unfold MIN; split <;> omega
      simp only [this]
    rw [process_main_outputFrame E pData inputs outputs nInputs nOutputs nSamples isPlaying
      ⟨hs, hp⟩ i t hi2.1 h2, Finset.sum_congr rfl hpad]
  · rw [process_main_outputs E pData inputs outputs nInputs nOutputs nSamples isPlaying ⟨hs, hp⟩,
      if_neg (fun hh => by omega)]

/-- Witness of C5: order 1 (four SH channels), once with six and once with two
requested output channels. -/
theorem main_path_egress_witness :
    ((2 : Int) = ((identityEnv Real.pi Real.sqrt).FRAME_SIZE : Int)) ∧ (1 : Int) ≠ 0
      ∧ (rotator_process (identityEnv Real.pi Real.sqrt) (sampleState 0 0 0 0 2 7)
          rampFrame (constFrame 5) 4 6 2 1).2 5 1 = 0
      ∧ (rotator_process (identityEnv Real.pi Real.sqrt) (sampleState 0 0 0 0 2 7)
          rampFrame (constFrame 5) 4 2 2 1).2 1 0
        = (rotator_process (identityEnv Real.pi Real.sqrt) (sampleState 0 0 0 0 2 7)
          rampFrame (constFrame 5) 4 2 2 1).1.outputFrameTD 1 0
      ∧ (rotator_process (identityEnv Real.pi Real.sqrt) (sampleState 0 0 0 0 2 7)
          rampFrame (constFrame 5) 4 2 2 1).1.outputFrameTD 1 0
        = (if (sampleState (0 : ℝ) 0 0 0 2 7).norm ≠ (identityEnv Real.pi Real.sqrt).NORM_N3D
              ∧ (sampleState (0 : ℝ) 0 0 0 2 7).norm = (identityEnv Real.pi Real.sqrt).NORM_SN3D
            then
              (∑ j in Finset.range (NUM_SH_SIGNALS (identityEnv Real.pi Real.sqrt)),
                (identityEnv Real.pi Real.sqrt).getSHrotMtxReal
                    ((identityEnv Real.pi Real.sqrt).yawPitchRoll2Rzyx 0 0 0) 1 1 j
                  * (if (j : Int) < MIN (NUM_SH_SIGNALS (identityEnv Real.pi Real.sqrt) : Int) 4
                      then rampFrame j 0 else 0))
                / Real.sqrt (2 * ((Nat.sqrt 1 : Nat) : ℝ) + 1)
            else
              ∑ j in Finset.range (NUM_SH_SIGNALS (identityEnv Real.pi Real.sqrt)),
                (identityEnv Real.pi Real.sqrt).getSHrotMtxReal
                    ((identityEnv Real.pi Real.sqrt).yawPitchRoll2Rzyx 0 0 0) 1 1 j
                  * (if (j : Int) < MIN (NUM_SH_SIGNALS (identityEnv Real.pi Real.sqrt) : Int) 4
                      then rampFrame j 0 else 0))
      ∧ (rotator_process (identityEnv Real.pi Real.sqrt) (sampleState 0 0 0 0 2 7)
          rampFrame (constFrame 5) 4 2 2 1).2 2 0 = (constFrame 5 : Frame ℝ) 2 0 :=
  ⟨by decide, by decide,
    (main_path_egress (identityEnv Real.pi Real.sqrt) (sampleState 0 0 0 0 2 7)
      rampFrame (constFrame 5) 4 6 2 1 (by decide) (by decide)).1 5 1
        (by decide) (by decide) (by decide),
    ((main_path_egress (identityEnv Real.pi Real.sqrt) (sampleState 0 0 0 0 2 7)
      rampFrame (constFrame 5) 4 2 2 1 (by decide) (by decide)).2.1 1 0
        (by decide) (by decide)).1,
    ((main_path_egress (identityEnv Real.pi Real.sqrt) (sampleState 0 0 0 0 2 7)
      rampFrame (constFrame 5) 4 2 2 1 (by decide) (by decide)).2.1 1 0
        (by decide) (by decide)).2,
    (main_path_egress (identityEnv Real.pi Real.sqrt) (sampleState 0 0 0 0 2 7)
      rampFrame (constFrame 5) 4 2 2 1 (by decide) (by decide)).2.2 2 0 (by decide)⟩

/-- C10: the outputs of `rotator_process` are determined by the arguments and
the parameters: two runs with the same yaw, pitch, roll, norm, inputs,
`nInputs`, `nOutputs`, `nSamples` and `isPlaying`, whatever the prior contents of
the host output buffers and of `inputFrameTD` / `outputFrameTD`, give the same
value at every sample of every output channel `i < nOutputs`, in both branches
and for every normalization. -/
theorem outputs_independent_of_prior_buffers (E : Env α) (p q : rotator_data α)
    (inputs outputs1 outputs2 : Frame α) (nInputs nOutputs nSamples isPlaying : Int)
    (hyaw : p.yaw = q.yaw) (hpitch : p.pitch = q.pitch) (hroll : p.roll = q.roll)
    (hnorm : p.norm = q.norm)
    (i t : Nat) (hi : (i : Int) < nOutputs) (ht : t < E.FRAME_SIZE) :
    (rotator_process E p inputs outputs1 nInputs nOutputs nSamples isPlaying).2 i t
      = (rotator_process E q inputs outputs2 nInputs nOutputs nSamples isPlaying).2 i t := by
  have hit : (i : Int) < nOutputs ∧ t < E.FRAME_SIZE := ⟨hi, ht⟩
  by_cases h : nSamples = (E.FRAME_SIZE : Int) ∧ isPlaying ≠ 0
  · rw [process_main_outputs E p inputs outputs1 nInputs nOutputs nSamples isPlaying h,
      process_main_outputs E q inputs outputs2 nInputs nOutputs nSamples isPlaying h]
    simp only [if_pos hit]
    by_cases hc : i < NUM_SH_SIGNALS E
    · simp only [if_pos hc]
      rw [process_main_outputFrame E p inputs outputs1 nInputs nOutputs nSamples isPlaying h
          i t hc ht,
        process_main_outputFrame E q inputs outputs2 nInputs nOutputs nSamples isPlaying h
          i t hc ht, hyaw, hpitch, hroll, hnorm]
    · simp only [if_neg hc]
  · rw [process_silence_outputs E p inputs outputs1 nInputs nOutputs nSamples isPlaying h,
      process_silence_outputs E q inputs outputs2 nInputs nOutputs nSamples isPlaying h]
    simp only [if_pos hit]

/-- Witness of C10: two `NORM_SN3D` states with different stale frame contents
and different prior host output buffers. -/
theorem outputs_independent_of_prior_buffers_witness :
    (sampleState (1 : ℝ) 2 3 0 2 7).yaw = (sampleState (1 : ℝ) 2 3 0 2 9).yaw
      ∧ (sampleState (1 : ℝ) 2 3 0 2 7).pitch = (sampleState (1 : ℝ) 2 3 0 2 9).pitch
      ∧ (sampleState (1 : ℝ) 2 3 0 2 7).roll = (sampleState (1 : ℝ) 2 3 0 2 9).roll
      ∧ (sampleState (1 : ℝ) 2 3 0 2 7).norm = (sampleState (1 : ℝ) 2 3 0 2 9).norm
      ∧ (rotator_process (identityEnv Real.pi Real.sqrt) (sampleState 1 2 3 0 2 7)
          rampFrame (constFrame 5) 4 6 2 1).2 1 0
        = (rotator_process (identityEnv Real.pi Real.sqrt) (sampleState 1 2 3 0 2 9)
          rampFrame (constFrame 6) 4 6 2 1).2 1 0 :=
  ⟨rfl, rfl, rfl, rfl,
    outputs_independent_of_prior_buffers (identityEnv Real.pi Real.sqrt)
      (sampleState 1 2 3 0 2 7) (sampleState 1 2 3 0 2 9) rampFrame (constFrame 5) (constFrame 6)
      4 6 2 1 rfl rfl rfl rfl 1 0 (by decide) (by decide)⟩

end ProcessClaims

/-! ## Properties of the parameter state -/

section Angles

variable {α : Type} [LinearOrderedField α]

/-- Degrees to radians and back is the identity when `PI` is not zero. -/
theorem RAD2DEG_DEG2RAD (E : Env α) (hPI : E.PI ≠ 0) (x : α) : RAD2DEG E (DEG2RAD E x) = x := by
  unfold RAD2DEG DEG2RAD
  field_simp

/-- Radians to degrees and back is the identity when `PI` is not zero. -/
theorem DEG2RAD_RAD2DEG (E : Env α) (hPI : E.PI ≠ 0) (x : α) : DEG2RAD E (RAD2DEG E x) = x := by
  unfold RAD2DEG DEG2RAD
  field_simp

/-- The macro `RAD2DEG` commutes with negation. -/
theorem RAD2DEG_neg (E : Env α) (x : α) : RAD2DEG E (-x) = -RAD2DEG E x := by
  unfold RAD2DEG
  ring

/-- The macro `DEG2RAD` commutes with negation. -/
theorem DEG2RAD_neg (E : Env α) (x : α) : DEG2RAD E (-x) = -DEG2RAD E x := by
  unfold DEG2RAD
  ring

/-- A flip call with a new flag value stores the flag and negates the stored yaw. -/
theorem setFlipYaw_of_ne (E : Env α) (hPI : E.PI ≠ 0) (pData : rotator_data α) (newState : Int)
    (h : newState ≠ pData.bFlipYaw) :
    rotator_setFlipYaw E pData newState
      = { pData with bFlipYaw := newState, yaw := -pData.yaw } := by
  unfold rotator_setFlipYaw
  rw [if_pos h]
  by_cases h1 : newState = 1 <;>
    simp [rotator_setYaw, rotator_getYaw, h1, DEG2RAD_neg, DEG2RAD_RAD2DEG E hPI]

/-- A flip call with a new flag value stores the flag and negates the stored pitch. -/
theorem setFlipPitch_of_ne (E : Env α) (hPI : E.PI ≠ 0) (pData : rotator_data α)
    (newState : Int) (h : newState ≠ pData.bFlipPitch) :
    rotator_setFlipPitch E pData newState
      = { pData with bFlipPitch := newState, pitch := -pData.pitch } := by
  unfold rotator_setFlipPitch
  rw [if_pos h]
  by_cases h1 : newState = 1 <;>
    simp [rotator_setPitch, rotator_getPitch, h1, DEG2RAD_neg, DEG2RAD_RAD2DEG E hPI]

/-- A flip call with a new flag value stores the flag and negates the stored roll. -/
theorem setFlipRoll_of_ne (E : Env α) (hPI : E.PI ≠ 0) (pData : rotator_data α)
    (newState : Int) (h : newState ≠ pData.bFlipRoll) :
    rotator_setFlipRoll E pData newState
      = { pData with bFlipRoll := newState, roll := -pData.roll } := by
  unfold rotator_setFlipRoll
  rw [if_pos h]
  by_cases h1 : newState = 1 <;>
    simp [rotator_setRoll, rotator_getRoll, h1, DEG2RAD_neg, DEG2RAD_RAD2DEG E hPI]

/-- C6: setter and getter are mutual inverses under the current flip state: for
every state (any value of the flip flag, so also the state right after a flip
toggle) and every angle `a` in degrees, `rotator_getYaw` after
`rotator_setYaw (a)` returns `a`, with `DEG2RAD` / `RAD2DEG` exact inverse
scalings (`PI ≠ 0`); the same for pitch and roll. -/
theorem get_after_set_returns_angle (E : Env α) (hPI : E.PI ≠ 0) (pData : rotator_data α)
    (a : α) :
    rotator_getYaw E (rotator_setYaw E pData a) = a
      ∧ rotator_getPitch E (rotator_setPitch E pData a) = a
      ∧ rotator_getRoll E (rotator_setRoll E pData a) = a := by
  refine ⟨?_, ?_, ?_⟩
  · by_cases h : pData.bFlipYaw = 1 <;>
      simp [rotator_getYaw, rotator_setYaw, h, RAD2DEG_neg, RAD2DEG_DEG2RAD E hPI]
  · by_cases h : pData.bFlipPitch = 1 <;>
      simp [rotator_getPitch, rotator_setPitch, h, RAD2DEG_neg, RAD2DEG_DEG2RAD E hPI]
  · by_cases h : pData.bFlipRoll = 1 <;>
      simp [rotator_getRoll, rotator_setRoll, h, RAD2DEG_neg, RAD2DEG_DEG2RAD E hPI]

/-- Witness of C6: 30 degrees set and read back on a state whose yaw flip flag
was just toggled to 1. -/
theorem get_after_set_returns_angle_witness :
    (identityEnv Real.pi Real.sqrt).PI ≠ 0
      ∧ rotator_getYaw (identityEnv Real.pi Real.sqrt)
          (rotator_setYaw (identityEnv Real.pi Real.sqrt)
            (rotator_setFlipYaw (identityEnv Real.pi Real.sqrt) (sampleState 1 0 0 0 1 7) 1) 30)
        = 30 :=
  ⟨Real.pi_ne_zero,
    (get_after_set_returns_angle (identityEnv Real.pi Real.sqrt) Real.pi_ne_zero
      (rotator_setFlipYaw (identityEnv Real.pi Real.sqrt) (sampleState 1 0 0 0 1 7) 1) 30).1⟩

/-- C7: a flip toggle preserves the user-visible angle: for every state whose
flip flag is 0 or 1 and `newState` in {0, 1} different from it, `rotator_getYaw`
after `rotator_setFlipYaw (newState)` returns what it returned before the call
(`PI ≠ 0`); the same for pitch and roll. -/
theorem flip_toggle_preserves_visible_angle (E : Env α) (hPI : E.PI ≠ 0) :
    (∀ (pData : rotator_data α) (newState : Int),
        (pData.bFlipYaw = 0 ∨ pData.bFlipYaw = 1) → (newState = 0 ∨ newState = 1) →
        newState ≠ pData.bFlipYaw →
        rotator_getYaw E (rotator_setFlipYaw E pData newState) = rotator_getYaw E pData)
      ∧ (∀ (pData : rotator_data α) (newState : Int),
        (pData.bFlipPitch = 0 ∨ pData.bFlipPitch = 1) → (newState = 0 ∨ newState = 1) →
        newState ≠ pData.bFlipPitch →
        rotator_getPitch E (rotator_setFlipPitch E pData newState) = rotator_getPitch E pData)
      ∧ (∀ (pData : rotator_data α) (newState : Int),
        (pData.bFlipRoll = 0 ∨ pData.bFlipRoll = 1) → (newState = 0 ∨ newState = 1) →
        newState ≠ pData.bFlipRoll →
        rotator_getRoll E (rotator_setFlipRoll E pData newState) = rotator_getRoll E pData) := by
  refine ⟨fun pData newState hf hn hne => ?_, fun pData newState hf hn hne => ?_,
    fun pData newState hf hn hne => ?_⟩
  · rw [setFlipYaw_of_ne E hPI pData newState hne]
    rcases hf with hf | hf <;> rcases hn with hn | hn <;>
      simp_all [rotator_getYaw, RAD2DEG_neg]
  · rw [setFlipPitch_of_ne E hPI pData newState hne]
    rcases hf with hf | hf <;> rcases hn with hn | hn <;>
      simp_all [rotator_getPitch, RAD2DEG_neg]
  · rw [setFlipRoll_of_ne E hPI pData newState hne]
    rcases hf with hf | hf <;> rcases hn with hn | hn <;>
      simp_all [rotator_getRoll, RAD2DEG_neg]

/-- Witness of C7: a state with yaw 1 rad and flip flag 0, toggled to 1. -/
theorem flip_toggle_preserves_visible_angle_witness :
    (identityEnv Real.pi Real.sqrt).PI ≠ 0
      ∧ rotator_getYaw (identityEnv Real.pi Real.sqrt)
          (rotator_setFlipYaw (identityEnv Real.pi Real.sqrt) (sampleState 1 0 0 0 1 7) 1)
        = rotator_getYaw (identityEnv Real.pi Real.sqrt) (sampleState 1 0 0 0 1 7) :=
  ⟨Real.pi_ne_zero,
    (flip_toggle_preserves_visible_angle (identityEnv Real.pi Real.sqrt) Real.pi_ne_zero).1
      (sampleState 1 0 0 0 1 7) 1 (Or.inl rfl) (Or.inr rfl) (by decide)⟩

/-- C8 (amended): in exact arithmetic (`DEG2RAD` / `RAD2DEG` exact inverse
scalings over the reals, `PI ≠ 0`) toggling a flip flag twice in a row is the
identity on the stored angle: from a state with flip flag `f` in {0, 1},
`rotator_setFlipYaw (1 - f)` followed by `rotator_setFlipYaw (f)` leaves the
stored yaw equal to its original value and the flag equal to `f`; the same for
pitch and roll. -/
theorem double_flip_restores_angle (E : Env α) (hPI : E.PI ≠ 0) :
    (∀ pData : rotator_data α, (pData.bFlipYaw = 0 ∨ pData.bFlipYaw = 1) →
        (rotator_setFlipYaw E (rotator_setFlipYaw E pData (1 - pData.bFlipYaw))
            pData.bFlipYaw).yaw = pData.yaw
          ∧ (rotator_setFlipYaw E (rotator_setFlipYaw E pData (1 - pData.bFlipYaw))
            pData.bFlipYaw).bFlipYaw = pData.bFlipYaw)
      ∧ (∀ pData : rotator_data α, (pData.bFlipPitch = 0 ∨ pData.bFlipPitch = 1) →
        (rotator_setFlipPitch E (rotator_setFlipPitch E pData (1 - pData.bFlipPitch))
            pData.bFlipPitch).pitch = pData.pitch
          ∧ (rotator_setFlipPitch E (rotator_setFlipPitch E pData (1 - pData.bFlipPitch))
            pData.bFlipPitch).bFlipPitch = pData.bFlipPitch)
      ∧ (∀ pData : rotator_data α, (pData.bFlipRoll = 0 ∨ pData.bFlipRoll = 1) →
        (rotator_setFlipRoll E (rotator_setFlipRoll E pData (1 - pData.bFlipRoll))
            pData.bFlipRoll).roll = pData.roll
          ∧ (rotator_setFlipRoll E (rotator_setFlipRoll E pData (1 - pData.bFlipRoll))
            pData.bFlipRoll).bFlipRoll = pData.bFlipRoll) := by
  refine ⟨fun pData _ => ?_, fun pData _ => ?_, fun pData _ => ?_⟩
  · rw [setFlipYaw_of_ne E hPI pData _ (by omega),
      setFlipYaw_of_ne E hPI _ _ (by show pData.bFlipYaw ≠ 1 - pData.bFlipYaw; omega)]
    simp
  · rw [setFlipPitch_of_ne E hPI pData _ (by omega),
      setFlipPitch_of_ne E hPI _ _ (by show pData.bFlipPitch ≠ 1 - pData.bFlipPitch; omega)]
    simp
  · rw [setFlipRoll_of_ne E hPI pData _ (by omega),
      setFlipRoll_of_ne E hPI _ _ (by show pData.bFlipRoll ≠ 1 - pData.bFlipRoll; omega)]
    simp

/-- Witness of C8 (amended): a state with yaw 1 rad and flip flag 0, toggled to 1 and back. -/
theorem double_flip_restores_angle_witness :
    (identityEnv Real.pi Real.sqrt).PI ≠ 0
      ∧ (rotator_setFlipYaw (identityEnv Real.pi Real.sqrt)
          (rotator_setFlipYaw (identityEnv Real.pi Real.sqrt) (sampleState 1 0 0 0 1 7)
            (1 - (sampleState (1 : ℝ) 0 0 0 1 7).bFlipYaw))
          (sampleState (1 : ℝ) 0 0 0 1 7).bFlipYaw).yaw = (sampleState (1 : ℝ) 0 0 0 1 7).yaw
      ∧ (rotator_setFlipYaw (identityEnv Real.pi Real.sqrt)
          (rotator_setFlipYaw (identityEnv Real.pi Real.sqrt) (sampleState 1 0 0 0 1 7)
            (1 - (sampleState (1 : ℝ) 0 0 0 1 7).bFlipYaw))
          (sampleState (1 : ℝ) 0 0 0 1 7).bFlipYaw).bFlipYaw
        = (sampleState (1 : ℝ) 0 0 0 1 7).bFlipYaw :=
  ⟨Real.pi_ne_zero,
    (double_flip_restores_angle (identityEnv Real.pi Real.sqrt) Real.pi_ne_zero).1
      (sampleState 1 0 0 0 1 7) (Or.inl rfl)⟩

/-- C9: redundant flip calls are no-ops: `rotator_setFlipYaw (newState)` with
`newState` equal to the current `bFlipYaw` leaves the whole state unchanged;
the same for `rotator_setFlipPitch` and `rotator_setFlipRoll`. -/
theorem redundant_flip_is_noop (E : Env α) (pData : rotator_data α) :
    rotator_setFlipYaw E pData pData.bFlipYaw = pData
      ∧ rotator_setFlipPitch E pData pData.bFlipPitch = pData
      ∧ rotator_setFlipRoll E pData pData.bFlipRoll = pData := by
  refine ⟨?_, ?_, ?_⟩
  · simp [rotator_setFlipYaw]
  · simp [rotator_setFlipPitch]
  · simp [rotator_setFlipRoll]

end Angles

/-! ## Enum setters, defaults and frame conditions -/

section Frame

/-- C11: the enum setters are unconditional overwrites without validation: for
every state and every int `v`, `rotator_getChOrder` after `rotator_setChOrder (v)`
returns `v` and `rotator_getNormType` after `rotator_setNormType (v)` returns
`v`, and each setter leaves every other field of the state unchanged. -/
theorem enum_setters_overwrite {α : Type} (pData : rotator_data α) (v : Int) :
    (rotator_getChOrder (rotator_setChOrder pData v) = v
        ∧ (rotator_setChOrder pData v).norm = pData.norm
        ∧ (rotator_setChOrder pData v).yaw = pData.yaw
        ∧ (rotator_setChOrder pData v).pitch = pData.pitch
        ∧ (rotator_setChOrder pData v).roll = pData.roll
        ∧ (rotator_setChOrder pData v).bFlipYaw = pData.bFlipYaw
        ∧ (rotator_setChOrder pData v).bFlipPitch = pData.bFlipPitch
        ∧ (rotator_setChOrder pData v).bFlipRoll = pData.bFlipRoll
        ∧ (rotator_setChOrder pData v).inputFrameTD = pData.inputFrameTD
        ∧ (rotator_setChOrder pData v).outputFrameTD = pData.outputFrameTD)
      ∧ (rotator_getNormType (rotator_setNormType pData v) = v
        ∧ (rotator_setNormType pData v).chOrdering = pData.chOrdering
        ∧ (rotator_setNormType pData v).yaw = pData.yaw
        ∧ (rotator_setNormType pData v).pitch = pData.pitch
        ∧ (rotator_setNormType pData v).roll = pData.roll
        ∧ (rotator_setNormType pData v).bFlipYaw = pData.bFlipYaw
        ∧ (rotator_setNormType pData v).bFlipPitch = pData.bFlipPitch
        ∧ (rotator_setNormType pData v).bFlipRoll = pData.bFlipRoll
        ∧ (rotator_setNormType pData v).inputFrameTD = pData.inputFrameTD
        ∧ (rotator_setNormType pData v).outputFrameTD = pData.outputFrameTD) :=
  ⟨⟨rfl, rfl, rfl, rfl, rfl, rfl, rfl, rfl, rfl, rfl⟩,
    ⟨rfl, rfl, rfl, rfl, rfl, rfl, rfl, rfl, rfl, rfl⟩⟩

variable {α : Type} [LinearOrderedField α]

/-- C12: defaults after a successful `rotator_create`: yaw, pitch and roll are
0, the three flip flags are 0, `chOrdering` is `CH_ACN` and `norm` is
`NORM_N3D`; so the angle getters return 0, the flip getters return 0,
`rotator_getChOrder` returns `CH_ACN` and `rotator_getNormType` returns
`NORM_N3D` on a fresh instance. -/
theorem create_sets_defaults (E : Env α) (malloc : Option (rotator_data α))
    (pData : rotator_data α) (h : rotator_create E malloc = some pData) :
    (pData.yaw = 0 ∧ pData.pitch = 0 ∧ pData.roll = 0
        ∧ pData.bFlipYaw = 0 ∧ pData.bFlipPitch = 0 ∧ pData.bFlipRoll = 0
        ∧ pData.chOrdering = E.CH_ACN ∧ pData.norm = E.NORM_N3D)
      ∧ (rotator_getYaw E pData = 0 ∧ rotator_getPitch E pData = 0
        ∧ rotator_getRoll E pData = 0
        ∧ rotator_getFlipYaw pData = 0 ∧ rotator_getFlipPitch pData = 0
        ∧ rotator_getFlipRoll pData = 0
        ∧ rotator_getChOrder pData = E.CH_ACN ∧ rotator_getNormType pData = E.NORM_N3D) := by
  cases malloc with
  | none => simp [rotator_create] at h
  | some p =>
    simp only [rotator_create, Option.some.injEq] at h
    subst h
    simp [rotator_getYaw, rotator_getPitch, rotator_getRoll, rotator_getFlipYaw,
      rotator_getFlipPitch, rotator_getFlipRoll, rotator_getChOrder, rotator_getNormType,
      RAD2DEG]

/-- Witness of C12: `malloc` hands out a block with leftover contents (angles
1, 2, 3, yaw flip 1, norm 2). -/
theorem create_sets_defaults_witness :
    rotator_create (identityEnv Real.pi Real.sqrt) (some (sampleState 1 2 3 1 2 7))
        = some (sampleState 0 0 0 0 1 7)
      ∧ rotator_getYaw (identityEnv Real.pi Real.sqrt) (sampleState 0 0 0 0 1 7) = 0
      ∧ rotator_getNormType (sampleState (0 : ℝ) 0 0 0 1 7)
        = (identityEnv Real.pi Real.sqrt).NORM_N3D :=
  ⟨rfl,
    (create_sets_defaults (identityEnv Real.pi Real.sqrt) (some (sampleState 1 2 3 1 2 7))
      (sampleState 0 0 0 0 1 7) rfl).2.1,
    (create_sets_defaults (identityEnv Real.pi Real.sqrt) (some (sampleState 1 2 3 1 2 7))
      (sampleState 0 0 0 0 1 7) rfl).2.2.2.2.2.2.2.2⟩

/-- C16: `rotator_process` never mutates the parameter state: for every
argument combination and in both branches, yaw, pitch, roll, the three flip
flags, `chOrdering` and `norm` after the call equal their values before it, and
on the silence path `inputFrameTD` and `outputFrameTD` are unchanged too. -/
theorem process_keeps_parameters (E : Env α) (pData : rotator_data α)
    (inputs outputs : Frame α) (nInputs nOutputs nSamples isPlaying : Int) :
    ((rotator_process E pData inputs outputs nInputs nOutputs nSamples isPlaying).1.yaw
          = pData.yaw
        ∧ (rotator_process E pData inputs outputs nInputs nOutputs nSamples isPlaying).1.pitch
          = pData.pitch
        ∧ (rotator_process E pData inputs outputs nInputs nOutputs nSamples isPlaying).1.roll
          = pData.roll
        ∧ (rotator_process E pData inputs outputs nInputs nOutputs nSamples isPlaying).1.bFlipYaw
          = pData.bFlipYaw
        ∧ (rotator_process E pData inputs outputs nInputs nOutputs nSamples
            isPlaying).1.bFlipPitch = pData.bFlipPitch
        ∧ (rotator_process E pData inputs outputs nInputs nOutputs nSamples
            isPlaying).1.bFlipRoll = pData.bFlipRoll
        ∧ (rotator_process E pData inputs outputs nInputs nOutputs nSamples
            isPlaying).1.chOrdering = pData.chOrdering
        ∧ (rotator_process E pData inputs outputs nInputs nOutputs nSamples isPlaying).1.norm
          = pData.norm)
      ∧ ((nSamples ≠ (E.FRAME_SIZE : Int) ∨ isPlaying = 0) →
        (rotator_process E pData inputs outputs nInputs nOutputs nSamples
            isPlaying).1.inputFrameTD = pData.inputFrameTD
          ∧ (rotator_process E pData inputs outputs nInputs nOutputs nSamples
            isPlaying).1.outputFrameTD = pData.outputFrameTD) := by
  by_cases h : nSamples = (E.FRAME_SIZE : Int) ∧ isPlaying ≠ 0
  · refine ⟨?_, fun hs => ?_⟩
    · unfold rotator_process
      rw [if_pos h]
      exact ⟨rfl, rfl, rfl, rfl, rfl, rfl, rfl, rfl⟩
    · rcases hs with hs | hs
      · exact absurd h.1 hs
      · exact absurd hs h.2
  · rw [process_silence E pData inputs outputs nInputs nOutputs nSamples isPlaying h]
    exact ⟨⟨rfl, rfl, rfl, rfl, rfl, rfl, rfl, rfl⟩, fun _ => ⟨rfl, rfl⟩⟩

/-- Witness of C16: a stopped block (`isPlaying` 0) leaves the two frames of
the state as they were. -/
theorem process_keeps_parameters_witness :
    ((2 : Int) ≠ ((identityEnv Real.pi Real.sqrt).FRAME_SIZE : Int) ∨ (0 : Int) = 0)
      ∧ (rotator_process (identityEnv Real.pi Real.sqrt) (sampleState 1 2 3 1 2 7)
          rampFrame (constFrame 5) 4 4 2 0).1.inputFrameTD
        = (sampleState (1 : ℝ) 2 3 1 2 7).inputFrameTD
      ∧ (rotator_process (identityEnv Real.pi Real.sqrt) (sampleState 1 2 3 1 2 7)
          rampFrame (constFrame 5) 4 4 2 0).1.outputFrameTD
        = (sampleState (1 : ℝ) 2 3 1 2 7).outputFrameTD :=
  ⟨Or.inr rfl,
    (process_keeps_parameters (identityEnv Real.pi Real.sqrt) (sampleState 1 2 3 1 2 7)
      rampFrame (constFrame 5) 4 4 2 0).2 (Or.inr rfl)⟩

/-- C18: the three axes are independent: `rotator_setYaw` changes only the
stored yaw, and `rotator_setFlipYaw` changes at most `bFlipYaw` and `yaw`;
`rotator_setPitch` / `rotator_setFlipPitch` touch only `pitch` / `bFlipPitch` and
`rotator_setRoll` / `rotator_setFlipRoll` touch only `roll` / `bFlipRoll`. -/
theorem axes_are_independent (E : Env α) (pData : rotator_data α) (a : α) (newState : Int) :
    (rotator_setYaw E pData a = { pData with yaw := (rotator_setYaw E pData a).yaw }
        ∧ rotator_setFlipYaw E pData newState
          = { pData with
              yaw := (rotator_setFlipYaw E pData newState).yaw,
              bFlipYaw := (rotator_setFlipYaw E pData newState).bFlipYaw })
      ∧ (rotator_setPitch E pData a = { pData with pitch := (rotator_setPitch E pData a).pitch }
        ∧ rotator_setFlipPitch E pData newState
          = { pData with
              pitch := (rotator_setFlipPitch E pData newState).pitch,
              bFlipPitch := (rotator_setFlipPitch E pData newState).bFlipPitch })
      ∧ (rotator_setRoll E pData a = { pData with roll := (rotator_setRoll E pData a).roll }
        ∧ rotator_setFlipRoll E pData newState
          = { pData with
              roll := (rotator_setFlipRoll E pData newState).roll,
              bFlipRoll := (rotator_setFlipRoll E pData newState).bFlipRoll }) := by
  refine ⟨⟨rfl, ?_⟩, ⟨rfl, ?_⟩, ⟨rfl, ?_⟩⟩
  · unfold rotator_setFlipYaw
    split <;> rfl
  · unfold rotator_setFlipPitch
    split <;> rfl
  · unfold rotator_setFlipRoll
    split <;> rfl

/-- C19: any normalization value other than `NORM_SN3D` behaves exactly like
`NORM_N3D` in `rotator_process`: for every int `v` that is not `NORM_SN3D`, as
stored by `rotator_setNormType`, the call with `norm == v` produces the same
output buffers and the same `outputFrameTD` as the call with
`norm == NORM_N3D` on the same inputs and angles. -/
theorem other_norms_behave_like_N3D (E : Env α) (pData : rotator_data α)
    (inputs outputs : Frame α) (nInputs nOutputs nSamples isPlaying : Int)
    (v : Int) (hv : v ≠ E.NORM_SN3D) :
    (rotator_process E (rotator_setNormType pData v) inputs outputs nInputs nOutputs nSamples
        isPlaying).2
        = (rotator_process E (rotator_setNormType pData E.NORM_N3D) inputs outputs nInputs
            nOutputs nSamples isPlaying).2
      ∧ (rotator_process E (rotator_setNormType pData v) inputs outputs nInputs nOutputs
          nSamples isPlaying).1.outputFrameTD
        = (rotator_process E (rotator_setNormType pData E.NORM_N3D) inputs outputs nInputs
            nOutputs nSamples isPlaying).1.outputFrameTD := by
  unfold rotator_process rotator_setNormType
  by_cases h : nSamples = (E.FRAME_SIZE : Int) ∧ isPlaying ≠ 0
  · simp only [if_pos h, if_neg hv, if_true, ite_self, and_self]
  · simp only [if_neg h, and_self]

/-- Witness of C19: the value 7, outside the enum domain, stored by
`rotator_setNormType`. -/
theorem other_norms_behave_like_N3D_witness :
    (7 : Int) ≠ (identityEnv Real.pi Real.sqrt).NORM_SN3D
      ∧ (rotator_process (identityEnv Real.pi Real.sqrt)
          (rotator_setNormType (sampleState 1 2 3 0 2 7) 7) rampFrame (constFrame 5) 4 4 2 1).2
        = (rotator_process (identityEnv Real.pi Real.sqrt)
          (rotator_setNormType (sampleState 1 2 3 0 2 7)
            (identityEnv Real.pi Real.sqrt).NORM_N3D) rampFrame (constFrame 5) 4 4 2 1).2 :=
  ⟨by decide,
    (other_norms_behave_like_N3D (identityEnv Real.pi Real.sqrt) (sampleState 1 2 3 0 2 7)
      rampFrame (constFrame 5) 4 4 2 1 7 (by decide)).1⟩

/-- C20: the channel-ordering parameter has no effect on processing: two states
that differ only in `chOrdering` (any int values, as stored by
`rotator_setChOrder`) give identical output buffers when `rotator_process` is
called with the same arguments. -/
theorem chOrdering_has_no_effect (E : Env α) (pData : rotator_data α)
    (inputs outputs : Frame α) (nInputs nOutputs nSamples isPlaying : Int) (v w : Int) :
    (rotator_process E (rotator_setChOrder pData v) inputs outputs nInputs nOutputs nSamples
        isPlaying).2
      = (rotator_process E (rotator_setChOrder pData w) inputs outputs nInputs nOutputs nSamples
        isPlaying).2 := by
  unfold rotator_process rotator_setChOrder
  by_cases h : nSamples = (E.FRAME_SIZE : Int) ∧ isPlaying ≠ 0
  · simp only [if_pos h]
  · simp only [if_neg h]

end Frame

/-! ## The flip transition -/

section Flip

variable {α : Type} [LinearOrderedField α]

/-- C14 (as the claim states it, refuted): from yaw 1 rad and flip flag 0,
`rotator_setFlipYaw (1)` stores yaw -1, while negating the angle read by the
getter under the OLD flip state and applying the setter under the new one
would store yaw 1. -/
theorem flip_reads_getter_under_old_state_refuted :
    (rotator_setFlipYaw (identityEnv Real.pi Real.sqrt) (sampleState 1 0 0 0 1 7) 1).yaw = -1
      ∧ (if (1 : Int) = 1
          then -DEG2RAD (identityEnv Real.pi Real.sqrt)
            (-rotator_getYaw (identityEnv Real.pi Real.sqrt) (sampleState 1 0 0 0 1 7))
          else DEG2RAD (identityEnv Real.pi Real.sqrt)
            (-rotator_getYaw (identityEnv Real.pi Real.sqrt) (sampleState 1 0 0 0 1 7))) = 1
      ∧ (rotator_setFlipYaw (identityEnv Real.pi Real.sqrt) (sampleState 1 0 0 0 1 7) 1).yaw
        ≠ (if (1 : Int) = 1
          then -DEG2RAD (identityEnv Real.pi Real.sqrt)
            (-rotator_getYaw (identityEnv Real.pi Real.sqrt) (sampleState 1 0 0 0 1 7))
          else DEG2RAD (identityEnv Real.pi Real.sqrt)
            (-rotator_getYaw (identityEnv Real.pi Real.sqrt) (sampleState 1 0 0 0 1 7))) := by
  have h1 : (rotator_setFlipYaw (identityEnv Real.pi Real.sqrt)
      (sampleState 1 0 0 0 1 7) 1).yaw = -1 := by
    rw [setFlipYaw_of_ne (identityEnv Real.pi Real.sqrt) Real.pi_ne_zero _ 1 (by decide)]
    rfl
  have h2 : (if (1 : Int) = 1
      then -DEG2RAD (identityEnv Real.pi Real.sqrt)
        (-rotator_getYaw (identityEnv Real.pi Real.sqrt) (sampleState 1 0 0 0 1 7))
      else DEG2RAD (identityEnv Real.pi Real.sqrt)
        (-rotator_getYaw (identityEnv Real.pi Real.sqrt) (sampleState 1 0 0 0 1 7))) = 1 := by
    have hg : rotator_getYaw (identityEnv Real.pi Real.sqrt) (sampleState 1 0 0 0 1 7)
        = RAD2DEG (identityEnv Real.pi Real.sqrt) 1 := by
      simp [rotator_getYaw, sampleState]
    rw [if_pos rfl, hg, DEG2RAD_neg, neg_neg,
      DEG2RAD_RAD2DEG (identityEnv Real.pi Real.sqrt) Real.pi_ne_zero]
  refine ⟨h1, h2, ?_⟩
  rw [h1, h2]
  norm_num

/-- C14 (amended): when `newState` differs from the current flag,
`rotator_setFlipYaw` first stores the new flag, then reads the user-facing angle
with the getter evaluated under the NEW flip state, negates that value and
applies the setter under the new flip state: the resulting state is
`flip := newState, yaw := (newState == 1 ? -toRadians (-g) : toRadians (-g))`
with `g` the value of `rotator_getYaw` once the flag is `newState`; the same for
pitch and roll. -/
theorem flip_reads_getter_under_new_state (E : Env α) (pData : rotator_data α)
    (newState : Int) :
    (newState ≠ pData.bFlipYaw →
        rotator_setFlipYaw E pData newState
          = { pData with
              bFlipYaw := newState,
              yaw :=
                if newState = 1
                then -DEG2RAD E (-rotator_getYaw E { pData with bFlipYaw := newState })
                else DEG2RAD E (-rotator_getYaw E { pData with bFlipYaw := newState }) })
      ∧ (newState ≠ pData.bFlipPitch →
        rotator_setFlipPitch E pData newState
          = { pData with
              bFlipPitch := newState,
              pitch :=
                if newState = 1
                then -DEG2RAD E (-rotator_getPitch E { pData with bFlipPitch := newState })
                else DEG2RAD E (-rotator_getPitch E { pData with bFlipPitch := newState }) })
      ∧ (newState ≠ pData.bFlipRoll →
        rotator_setFlipRoll E pData newState
          = { pData with
              bFlipRoll := newState,
              roll :=
                if newState = 1
                then -DEG2RAD E (-rotator_getRoll E { pData with bFlipRoll := newState })
                else DEG2RAD E (-rotator_getRoll E { pData with bFlipRoll := newState }) }) := by
  refine ⟨fun h => ?_, fun h => ?_, fun h => ?_⟩
  · unfold rotator_setFlipYaw
    rw [if_pos h]
    rfl
  · unfold rotator_setFlipPitch
    rw [if_pos h]
    rfl
  · unfold rotator_setFlipRoll
    rw [if_pos h]
    rfl

/-- Witness of C14 (amended): yaw 1 rad, flip flag 0, toggled to 1. -/
theorem flip_reads_getter_under_new_state_witness :
    (1 : Int) ≠ (sampleState (1 : ℝ) 0 0 0 1 7).bFlipYaw
      ∧ rotator_setFlipYaw (identityEnv Real.pi Real.sqrt) (sampleState 1 0 0 0 1 7) 1
        = { sampleState (1 : ℝ) 0 0 0 1 7 with
            bFlipYaw := 1,
            yaw :=
              if (1 : Int) = 1
              then -DEG2RAD (identityEnv Real.pi Real.sqrt)
                (-rotator_getYaw (identityEnv Real.pi Real.sqrt)
                  { sampleState (1 : ℝ) 0 0 0 1 7 with bFlipYaw := 1 })
              else DEG2RAD (identityEnv Real.pi Real.sqrt)
                (-rotator_getYaw (identityEnv Real.pi Real.sqrt)
                  { sampleState (1 : ℝ) 0 0 0 1 7 with bFlipYaw := 1 }) } :=
  ⟨by decide,
    (flip_reads_getter_under_new_state (identityEnv Real.pi Real.sqrt)
      (sampleState 1 0 0 0 1 7) 1).1 (by decide)⟩

/-- C15 (amended): in exact arithmetic (`DEG2RAD` / `RAD2DEG` exact inverse
scalings over the reals, `PI ≠ 0`) a flip toggle inverts the rotation's physical
sense: for every state with flip flag in {0, 1} and `newState` in {0, 1}
different from it, after `rotator_setFlipYaw (newState)` the stored yaw, the
radians value that `rotator_process` feeds to `yawPitchRoll2Rzyx`, is the
negation of the stored yaw before the call; the same for pitch and roll. -/
theorem flip_toggle_negates_stored_angle (E : Env α) (hPI : E.PI ≠ 0) :
    (∀ (pData : rotator_data α) (newState : Int),
        (pData.bFlipYaw = 0 ∨ pData.bFlipYaw = 1) → (newState = 0 ∨ newState = 1) →
        newState ≠ pData.bFlipYaw →
        (rotator_setFlipYaw E pData newState).yaw = -pData.yaw)
      ∧ (∀ (pData : rotator_data α) (newState : Int),
        (pData.bFlipPitch = 0 ∨ pData.bFlipPitch = 1) → (newState = 0 ∨ newState = 1) →
        newState ≠ pData.bFlipPitch →
        (rotator_setFlipPitch E pData newState).pitch = -pData.pitch)
      ∧ (∀ (pData : rotator_data α) (newState : Int),
        (pData.bFlipRoll = 0 ∨ pData.bFlipRoll = 1) → (newState = 0 ∨ newState = 1) →
        newState ≠ pData.bFlipRoll →
        (rotator_setFlipRoll E pData newState).roll = -pData.roll) := by
  refine ⟨fun pData newState _ _ hne => ?_, fun pData newState _ _ hne => ?_,
    fun pData newState _ _ hne => ?_⟩
  · rw [setFlipYaw_of_ne E hPI pData newState hne]
  · rw [setFlipPitch_of_ne E hPI pData newState hne]
  · rw [setFlipRoll_of_ne E hPI pData newState hne]

/-- Witness of C15 (amended): yaw 1 rad, pitch 2 rad, flip flag 0 toggled to 1. -/
theorem flip_toggle_negates_stored_angle_witness :
    (identityEnv Real.pi Real.sqrt).PI ≠ 0
      ∧ (rotator_setFlipYaw (identityEnv Real.pi Real.sqrt) (sampleState 1 2 0 0 1 7) 1).yaw
        = -(sampleState (1 : ℝ) 2 0 0 1 7).yaw
      ∧ (rotator_setFlipPitch (identityEnv Real.pi Real.sqrt) (sampleState 1 2 0 0 1 7) 1).pitch
        = -(sampleState (1 : ℝ) 2 0 0 1 7).pitch :=
  ⟨Real.pi_ne_zero,
    (flip_toggle_negates_stored_angle (identityEnv Real.pi Real.sqrt) Real.pi_ne_zero).1
      (sampleState 1 2 0 0 1 7) 1 (Or.inl rfl) (Or.inr rfl) (by decide),
    (flip_toggle_negates_stored_angle (identityEnv Real.pi Real.sqrt) Real.pi_ne_zero).2.1
      (sampleState 1 2 0 0 1 7) 1 (Or.inl rfl) (Or.inr rfl) (by decide)⟩

end Flip

/-! ## Band bookkeeping -/

section Bookkeeping

/-- Two loops over the same range whose rounds preserve a relation between
their states preserve it. -/
theorem loopFrom_lockstep {σ τ : Type} (R : σ → τ → Prop) (b1 : Nat → σ → σ)
    (b2 : Nat → τ → τ) :
    ∀ (k lo : Nat) (s : σ) (t : τ),
      (∀ i, lo ≤ i → i < lo + k → ∀ s t, R s t → R (b1 i s) (b2 i t)) →
      R s t → R (loopFrom b1 lo k s) (loopFrom b2 lo k t)
  | 0, _, _, _, _, h => h
  | k + 1, lo, s, t, hstep, h => by
      simp only [loopFrom]
      exact loopFrom_lockstep R b1 b2 k (lo + 1) _ _
        (fun i h1 h2 => hstep i (by omega) (by omega))
        (hstep lo le_rfl (by omega) s t h)

/-- A property of counter and state that every round carries one step further
holds when the loop is left. -/
theorem loopFrom_invariant {σ : Type} (P : Nat → σ → Prop) (body : Nat → σ → σ) :
    ∀ (k lo : Nat) (s : σ),
      (∀ i s, lo ≤ i → i < lo + k → P i s → P (i + 1) (body i s)) →
      P lo s → P (lo + k) (loopFrom body lo k s)
  | 0, _, _, _, h => h
  | k + 1, lo, s, hstep, h => by
      simp only [loopFrom]
      have := loopFrom_invariant P body k (lo + 1) (body lo s)
        (fun i s h1 h2 => hstep i s (by omega) (by omega))
        (hstep lo s le_rfl (by omega) h)
      rwa [show lo + 1 + k = lo + (k + 1) by omega] at this

/-- A loop that appends one entry a round appends the image of its range. -/
theorem loopFrom_append {β : Type} (f : Nat → β) :
    ∀ (k lo : Nat) (acc : List β),
      loopFrom (fun ch acc => acc ++ [f ch]) lo k acc = acc ++ (List.range' lo k).map f
  | 0, _, acc => by simp [loopFrom]
  | k + 1, lo, acc => by
      simp only [loopFrom]
      rw [loopFrom_append f k (lo + 1)]
      simp [List.range'_succ]

/-- The visits of the band loops, in closed form: the channels
`0 .. NUM_SH_SIGNALS - 1` in order, channel `ch` in band `Nat.sqrt ch`. -/
theorem bandVisits_eq {α : Type} [LinearOrderedField α] (E : Env α) :
    bandVisits E (prep_o E)
      = (List.range (NUM_SH_SIGNALS E)).map (fun ch => (Nat.sqrt ch, ch)) := by
  have key := loopFrom_invariant
    (fun n (acc : List (Nat × Nat)) =>
      n ≤ E.SH_ORDER + 1 ∧ acc = (List.range (n * n)).map (fun ch => (Nat.sqrt ch, ch)))
    (fun n acc =>
      forLoop ((prep_o E).getD n 0) ((prep_o E).getD (n + 1) 0)
        (fun ch acc => acc ++ [(n, ch)]) acc)
    (E.SH_ORDER + 1 - 0) 0 []
    (fun n acc h1 h2 hP => by
      obtain ⟨_, hacc⟩ := hP
      refine ⟨by omega, ?_⟩
      show forLoop ((prep_o E).getD n 0) ((prep_o E).getD (n + 1) 0)
        (fun ch acc => acc ++ [(n, ch)]) acc = _
      rw [prep_o_getD E n (by omega), prep_o_getD E (n + 1) (by omega)]
      unfold forLoop
      rw [loopFrom_append (fun ch => (n, ch)), hacc]
      have hsplit : List.range ((n + 1) * (n + 1))
          = List.range (n * n) ++ List.range' (n * n) ((n + 1) * (n + 1) - n * n) := by
        have happ := List.range'_append_1 0 (n * n) ((n + 1) * (n + 1) - n * n)
        simp only [Nat.zero_add] at happ
        have hle : n * n ≤ (n + 1) * (n + 1) := Nat.mul_le_mul (by omega) (by omega)
        rw [List.range_eq_range', List.range_eq_range', happ,
          show (n + 1) * (n + 1) - n * n + n * n = (n + 1) * (n + 1) by omega]
      rw [hsplit, List.map_append]
      congr 1
      apply List.map_congr_left
      intro ch hch
      rw [List.mem_range'_1] at hch
      have : n * n ≤ (n + 1) * (n + 1) := Nat.mul_le_mul (by omega) (by omega)
      rw [Nat.eq_sqrt.mpr ⟨hch.1, by omega⟩])
    ⟨by omega, by simp⟩
  have h2 := key.2
  simp only [Nat.sub_zero, Nat.zero_add] at h2
  exact h2

/-- A nest of band loops does what a fold of its body over the visits does. -/
theorem bandNest_eq_foldl {α σ : Type} [LinearOrderedField α] (E : Env α) (o : List Nat)
    (f : Nat → Nat → σ → σ) (s : σ) :
    forLoop 0 (E.SH_ORDER + 1) (fun n s =>
        forLoop (o.getD n 0) (o.getD (n + 1) 0) (fun ch s => f n ch s) s) s
      = (bandVisits E o).foldl (fun s p => f p.1 p.2 s) s :=
  loopFrom_lockstep
    (fun (x : σ) (acc : List (Nat × Nat)) => x = acc.foldl (fun s p => f p.1 p.2 s) s)
    _ _ _ _ s []
    (fun n _ _ x acc hR =>
      loopFrom_lockstep
        (fun (x : σ) (acc : List (Nat × Nat)) => x = acc.foldl (fun s p => f p.1 p.2 s) s)
        _ _ _ _ x acc
        (fun ch _ _ x acc hR => by
          show f n ch x = List.foldl _ s (acc ++ [(n, ch)])
          rw [List.foldl_append, ← hR]
          rfl)
        hR)
    rfl

/-- C17: band bookkeeping of the normalization loops is in bounds and
exhaustive: the array `o` has `SH_ORDER + 2` entries with `o[n] = n*n`, every
access `o[n]`, `o[n+1]` for `n` in `0 .. SH_ORDER` is inside it, the two loop
nests run their bodies exactly at the recorded visits, every visited channel
`ch` is below `NUM_SH_SIGNALS` and lies in its band (`n*n ≤ ch < (n+1)*(n+1)`,
`n ≤ SH_ORDER`), every channel below `NUM_SH_SIGNALS` is visited exactly once,
in the unique band `n` with `n*n ≤ ch < (n+1)*(n+1)`, and so each sample of it is
scaled by exactly one factor `sqrtf (2n+1)`. -/
theorem band_bookkeeping {α : Type} [LinearOrderedField α] (E : Env α) :
    (prep_o E).length = E.SH_ORDER + 2
      ∧ (∀ n, n ≤ E.SH_ORDER + 1 → (prep_o E).getD n 0 = n * n)
      ∧ (∀ n, n ≤ E.SH_ORDER → n < (prep_o E).length ∧ n + 1 < (prep_o E).length)
      ∧ (∀ b : Frame α,
          convertToN3D E (prep_o E) b
              = (bandVisits E (prep_o E)).foldl (fun b p =>
                  forLoop 0 E.FRAME_SIZE (fun i b =>
                    store b p.2 i (b p.2 i * E.sqrtf (2 * (p.1 : α) + 1))) b) b
            ∧ convertToSN3D E (prep_o E) b
              = (bandVisits E (prep_o E)).foldl (fun b p =>
                  forLoop 0 E.FRAME_SIZE (fun i b =>
                    store b p.2 i (b p.2 i / E.sqrtf (2 * (p.1 : α) + 1))) b) b)
      ∧ (∀ p, p ∈ bandVisits E (prep_o E) →
          p.1 ≤ E.SH_ORDER ∧ p.2 < NUM_SH_SIGNALS E
            ∧ p.1 * p.1 ≤ p.2 ∧ p.2 < (p.1 + 1) * (p.1 + 1))
      ∧ (∀ ch, ch < NUM_SH_SIGNALS E →
          ((bandVisits E (prep_o E)).map Prod.snd).count ch = 1
            ∧ ∀ n, (n, ch) ∈ bandVisits E (prep_o E) ↔ (n * n ≤ ch ∧ ch < (n + 1) * (n + 1)))
      ∧ (∀ (b : Frame α) (c t : Nat), c < NUM_SH_SIGNALS E → t < E.FRAME_SIZE →
          convertToN3D E (prep_o E) b c t = b c t * E.sqrtf (2 * ((Nat.sqrt c : Nat) : α) + 1)
            ∧ convertToSN3D E (prep_o E) b c t
              = b c t / E.sqrtf (2 * ((Nat.sqrt c : Nat) : α) + 1)) := by
  refine ⟨prep_o_length E, fun n hn => prep_o_getD E n (by omega), fun n hn => ?_,
    fun b => ⟨?_, ?_⟩, fun p hp => ?_, fun ch hch => ⟨?_, fun n => ?_⟩,
    fun b c t hc ht => ⟨?_, ?_⟩⟩
  · rw [prep_o_length]; omega
  · exact bandNest_eq_foldl E (prep_o E)
      (fun n ch b => forLoop 0 E.FRAME_SIZE (fun i b =>
        store b ch i (b ch i * E.sqrtf (2 * (n : α) + 1))) b) b
  · exact bandNest_eq_foldl E (prep_o E)
      (fun n ch b => forLoop 0 E.FRAME_SIZE (fun i b =>
        store b ch i (b ch i / E.sqrtf (2 * (n : α) + 1))) b) b
  · rw [bandVisits_eq, List.mem_map] at hp
    obtain ⟨c, hc, rfl⟩ := hp
    have hc2 : c < NUM_SH_SIGNALS E := List.mem_range.mp hc
    have hs : Nat.sqrt c < E.SH_ORDER + 1 := Nat.sqrt_lt.mpr hc2
    exact ⟨by omega, hc2, Nat.sqrt_le c, Nat.lt_succ_sqrt c⟩
  · rw [bandVisits_eq, List.map_map]
    have hid : (Prod.snd ∘ fun ch : Nat => (Nat.sqrt ch, ch)) = id := rfl
    rw [hid, List.map_id]
    exact List.count_eq_one_of_mem (List.nodup_range _) (List.mem_range.mpr hch)
  · rw [bandVisits_eq, List.mem_map]
    constructor
    · rintro ⟨c, _, hc⟩
      obtain ⟨h1, h2⟩ := Prod.mk.inj hc
      subst h2
      subst h1
      exact ⟨Nat.sqrt_le c, Nat.lt_succ_sqrt c⟩
    · intro h
      exact ⟨ch, List.mem_range.mpr hch, by rw [← Nat.eq_sqrt.mpr h]⟩
  · rw [convertToN3D_apply, if_pos ⟨hc, ht⟩]
  · rw [convertToSN3D_apply, if_pos ⟨hc, ht⟩]

/-- C13 (evaluation of the code): with `NORM_SN3D`, identity collaborators,
order 1 and input channel `c` holding `c + 1`, the frame that `rotator_process`
multiplies by the rotation matrix holds the raw input 3 at channel 2 (band 1),
sample 1, not `3 * sqrt 3`, and the output there is `3 / sqrt 3`, while
`D⁻¹ * M * D * x` is 3 at that place. -/
theorem SN3D_normalize_in_misses_input_frame :
    (rotator_process (identityEnv Real.pi Real.sqrt) (sampleState 0 0 0 0 2 7)
        rampFrame (constFrame 5) 4 4 2 1).1.inputFrameTD 2 1 = 3
      ∧ (rotator_process (identityEnv Real.pi Real.sqrt) (sampleState 0 0 0 0 2 7)
        rampFrame (constFrame 5) 4 4 2 1).2 2 1 = 3 / Real.sqrt 3
      ∧ (∑ j in Finset.range (NUM_SH_SIGNALS (identityEnv Real.pi Real.sqrt)),
          (identityEnv Real.pi Real.sqrt).getSHrotMtxReal
              ((identityEnv Real.pi Real.sqrt).yawPitchRoll2Rzyx 0 0 0) 1 2 j
            * ((rampFrame : Frame ℝ) j 1 * Real.sqrt (2 * ((Nat.sqrt j : Nat) : ℝ) + 1)))
          / Real.sqrt (2 * ((Nat.sqrt 2 : Nat) : ℝ) + 1) = 3
      ∧ (3 : ℝ) / Real.sqrt 3 ≠ 3 := by
  have hs2 : Nat.sqrt 2 = 1 := (Nat.eq_sqrt.mpr ⟨by decide, by decide⟩).symm
  have hpos : (0 : ℝ) < Real.sqrt 3 := Real.sqrt_pos.mpr (by norm_num)
  refine ⟨?_, ?_, ?_, ?_⟩
  · rw [process_main_inputFrame _ _ _ _ _ _ _ _ ⟨by decide, by decide⟩,
      if_pos ⟨by decide, by decide⟩, if_pos (by decide)]
    simp only [rampFrame]
    norm_num
  · have hit : ((2 : Nat) : Int) < 4 ∧ 1 < (identityEnv Real.pi Real.sqrt).FRAME_SIZE :=
      ⟨by decide, by decide⟩
    rw [process_main_outputs _ _ _ _ _ _ _ _ ⟨by decide, by decide⟩, if_pos hit,
      if_pos (by decide),
      process_main_outputFrame _ _ _ _ _ _ _ _ ⟨by decide, by decide⟩ 2 1 (by decide) (by decide),
      if_pos ⟨by decide, by decide⟩, hs2]
    have h3 : (2 * ((1 : Nat) : ℝ) + 1) = 3 := by norm_num
    rw [h3]
    congr 1
    simp [identityEnv, NUM_SH_SIGNALS, rampFrame, sampleState, Finset.sum_range_succ]
    norm_num
  · rw [hs2]
    have h3 : (2 * ((1 : Nat) : ℝ) + 1) = 3 := by norm_num
    rw [h3]
    have hsum : (∑ j in Finset.range (NUM_SH_SIGNALS (identityEnv Real.pi Real.sqrt)),
          (identityEnv Real.pi Real.sqrt).getSHrotMtxReal
              ((identityEnv Real.pi Real.sqrt).yawPitchRoll2Rzyx 0 0 0) 1 2 j
            * ((rampFrame : Frame ℝ) j 1 * Real.sqrt (2 * ((Nat.sqrt j : Nat) : ℝ) + 1)))
        = 3 * Real.sqrt 3 := by
      simp [identityEnv, NUM_SH_SIGNALS, rampFrame, Finset.sum_range_succ, hs2]
      norm_num
    rw [hsum]
    field_simp
  · intro h
    have h0 : (3 : ℝ) = 3 * Real.sqrt 3 := (div_eq_iff hpos.ne').mp h
    have h1 : Real.sqrt 3 = 1 := by linarith
    have h2 : (3 : ℝ) = 1 := by
      have := Real.sq_sqrt (show (0 : ℝ) ≤ 3 by norm_num)
      rw [h1] at this
      linarith
    norm_num at h2

end Bookkeeping
/-! ## The flip toggle in binary32 -/

section Binary32Facts

/-- A rational strictly within half a unit of the integer `m` rounds to `m`. -/
theorem Binary32.roundHalfEven_eq (x : ℚ) (m : ℤ) (h1 : (m : ℚ) - 1 / 2 < x)
    (h2 : x < m + 1 / 2) : Binary32.roundHalfEven x = m := by
  have hf1 : (⌊x⌋ : ℚ) ≤ x := Int.floor_le x
  have hf2 : x < ⌊x⌋ + 1 := Int.lt_floor_add_one x
  have hlo : m - 1 < ⌊x⌋ + 1 := by
    have : ((m - 1 : ℤ) : ℚ) < ((⌊x⌋ + 1 : ℤ) : ℚ) := by push_cast; linarith
    exact_mod_cast this
  have hhi : ⌊x⌋ < m + 1 := by
    have : ((⌊x⌋ : ℤ) : ℚ) < ((m + 1 : ℤ) : ℚ) := by push_cast; linarith
    exact_mod_cast this
  unfold Binary32.roundHalfEven
  split_ifs with c1 c2 c3
  · have : m < ⌊x⌋ + 1 := by
      have : ((m : ℤ) : ℚ) < ((⌊x⌋ + 1 : ℤ) : ℚ) := by push_cast; linarith
      exact_mod_cast this
    omega
  · have : ⌊x⌋ < m := by
      have : ((⌊x⌋ : ℤ) : ℚ) < ((m : ℤ) : ℚ) := by linarith
      exact_mod_cast this
    omega
  · exfalso
    have hx : x - ⌊x⌋ = 1 / 2 := le_antisymm (not_lt.mp c2) (not_lt.mp c1)
    rcases (show ⌊x⌋ = m - 1 ∨ ⌊x⌋ = m by omega) with h | h
    · rw [h] at hx; push_cast at hx; linarith
    · rw [h] at hx; linarith
  · exfalso
    have hx : x - ⌊x⌋ = 1 / 2 := le_antisymm (not_lt.mp c2) (not_lt.mp c1)
    rcases (show ⌊x⌋ = m - 1 ∨ ⌊x⌋ = m by omega) with h | h
    · rw [h] at hx; push_cast at hx; linarith
    · rw [h] at hx; linarith

/-- The binary32 value of `q` when `|q|` lies in the binade of `2 ^ e` and
`q / 2 ^ (e - 23)` is strictly within half a unit of the integer `m`. -/
theorem Binary32.roundFloat_eq (q : ℚ) (e m : ℤ) (he : -126 ≤ e) (hlo : (2 : ℚ) ^ e ≤ |q|)
    (hhi : |q| < (2 : ℚ) ^ (e + 1))
    (h1 : (m : ℚ) - 1 / 2 < q / 2 ^ (e - 23)) (h2 : q / 2 ^ (e - 23) < m + 1 / 2) :
    Binary32.roundFloat q = m * 2 ^ (e - 23) := by
  have hpos : (0 : ℚ) < |q| := lt_of_lt_of_le (zpow_pos (by norm_num) e) hlo
  have hq : q ≠ 0 := abs_pos.mp hpos
  have hlog : Int.log 2 |q| = e := by
    apply le_antisymm
    · have := (Int.lt_zpow_iff_log_lt (b := 2) (by norm_num) (x := e + 1) hpos).mp
        (by exact_mod_cast hhi)
      omega
    · exact (Int.zpow_le_iff_le_log (b := 2) (by norm_num) hpos).mp (by exact_mod_cast hlo)
  unfold Binary32.roundFloat
  rw [if_neg hq, hlog, max_eq_left he, Binary32.roundHalfEven_eq _ m h1 h2]

/-- The binary32 radians of `4.9f` (bits `0x409ccccd`): bits `0x3daf25b5`. -/
theorem Binary32.DEG2RAD_four_point_nine :
    Binary32.DEG2RAD (10276045 / 2097152) = 11478453 / 134217728 := by
  unfold Binary32.DEG2RAD Binary32.PI
  rw [Binary32.roundFloat_eq (10276045 / 2097152 * (13176795 / 4194304)) 3 16141574
    (by norm_num) (by rw [abs_of_pos (by norm_num)]; norm_num)
    (by rw [abs_of_pos (by norm_num)]; norm_num) (by norm_num) (by norm_num)]
  rw [Binary32.roundFloat_eq _ (-4) 11478453
    (by norm_num) (by rw [abs_of_pos (by norm_num)]; norm_num)
    (by rw [abs_of_pos (by norm_num)]; norm_num) (by norm_num) (by norm_num)]
  norm_num

/-- The binary32 degrees of the stored yaw `0x3daf25b5`. -/
theorem Binary32.RAD2DEG_stored :
    Binary32.RAD2DEG (11478453 / 134217728) = 5138023 / 1048576 := by
  unfold Binary32.RAD2DEG Binary32.PI
  rw [Binary32.roundFloat_eq (11478453 / 134217728 * 180) 3 16141575
    (by norm_num) (by rw [abs_of_pos (by norm_num)]; norm_num)
    (by rw [abs_of_pos (by norm_num)]; norm_num) (by norm_num) (by norm_num)]
  rw [Binary32.roundFloat_eq _ 2 10276046
    (by norm_num) (by rw [abs_of_pos (by norm_num)]; norm_num)
    (by rw [abs_of_pos (by norm_num)]; norm_num) (by norm_num) (by norm_num)]
  norm_num

/-- The binary32 radians of these degrees: bits `0x3daf25b6`, one unit in the
last place above the stored yaw they were read from. -/
theorem Binary32.DEG2RAD_read_back :
    Binary32.DEG2RAD (5138023 / 1048576) = 5739227 / 67108864 := by
  unfold Binary32.DEG2RAD Binary32.PI
  rw [Binary32.roundFloat_eq (5138023 / 1048576 * (13176795 / 4194304)) 3 16141576
    (by norm_num) (by rw [abs_of_pos (by norm_num)]; norm_num)
    (by rw [abs_of_pos (by norm_num)]; norm_num) (by norm_num) (by norm_num)]
  rw [Binary32.roundFloat_eq _ (-4) 11478454
    (by norm_num) (by rw [abs_of_pos (by norm_num)]; norm_num)
    (by rw [abs_of_pos (by norm_num)]; norm_num) (by norm_num) (by norm_num)]
  norm_num

/-- The binary32 degrees of the yaw stored by the first toggle, `0xbdaf25b6`. -/
theorem Binary32.RAD2DEG_toggled :
    Binary32.RAD2DEG (-(5739227 / 67108864)) = -(5138023 / 1048576) := by
  unfold Binary32.RAD2DEG Binary32.PI
  rw [Binary32.roundFloat_eq (-(5739227 / 67108864) * 180) 3 (-16141576)
    (by norm_num) (by rw [abs_of_neg (by norm_num)]; norm_num)
    (by rw [abs_of_neg (by norm_num)]; norm_num) (by norm_num) (by norm_num)]
  rw [Binary32.roundFloat_eq _ 2 (-10276046)
    (by norm_num) (by rw [abs_of_neg (by norm_num)]; norm_num)
    (by rw [abs_of_neg (by norm_num)]; norm_num) (by norm_num) (by norm_num)]
  norm_num

/-- The state after `rotator_setYaw (4.9f)` on a fresh state, flip flag 0. -/
theorem Binary32.setYaw_four_point_nine :
    Binary32.rotator_setYaw (sampleState 0 0 0 0 1 0) (10276045 / 2097152)
      = sampleState (11478453 / 134217728) 0 0 0 1 0 := by
  simp only [Binary32.rotator_setYaw, sampleState, Binary32.DEG2RAD_four_point_nine]
  rfl

/-- The first toggle, flag 0 to 1, on the state after `rotator_setYaw (4.9f)`. -/
theorem Binary32.setFlipYaw_first :
    Binary32.rotator_setFlipYaw (sampleState (11478453 / 134217728) 0 0 0 1 0) 1
      = sampleState (-(5739227 / 67108864)) 0 0 1 1 0 := by
  unfold Binary32.rotator_setFlipYaw
  rw [if_pos (by decide)]
  simp only [Binary32.rotator_setYaw, Binary32.rotator_getYaw, sampleState, if_true, neg_neg,
    Binary32.RAD2DEG_stored, Binary32.DEG2RAD_read_back]

/-- The second toggle, flag 1 back to 0. -/
theorem Binary32.setFlipYaw_second :
    Binary32.rotator_setFlipYaw (sampleState (-(5739227 / 67108864)) 0 0 1 1 0) 0
      = sampleState (5739227 / 67108864) 0 0 0 1 0 := by
  unfold Binary32.rotator_setFlipYaw
  rw [if_pos (by decide)]
  simp only [Binary32.rotator_setYaw, Binary32.rotator_getYaw, sampleState, neg_neg,
    Binary32.RAD2DEG_toggled, Binary32.DEG2RAD_read_back]
  simp [Binary32.DEG2RAD_read_back]

/-- C8 (as the claim states it, refuted on `float`s): after
`rotator_setYaw (4.9f)` the stored yaw has bits `0x3daf25b5`; toggling the yaw
flip flag to 1 and back to 0 leaves the flag at 0 and stores the yaw with bits
`0x3daf25b6`, one unit in the last place above the original value. -/
theorem binary32_double_flip_moves_stored_yaw :
    Binary32.rotator_setYaw (sampleState 0 0 0 0 1 0) (10276045 / 2097152)
        = sampleState (11478453 / 134217728) 0 0 0 1 0
      ∧ (Binary32.rotator_setFlipYaw
          (Binary32.rotator_setFlipYaw (sampleState (11478453 / 134217728) 0 0 0 1 0) 1)
          0).bFlipYaw = 0
      ∧ (Binary32.rotator_setFlipYaw
          (Binary32.rotator_setFlipYaw (sampleState (11478453 / 134217728) 0 0 0 1 0) 1)
          0).yaw = 11478454 / 134217728
      ∧ (Binary32.rotator_setFlipYaw
          (Binary32.rotator_setFlipYaw (sampleState (11478453 / 134217728) 0 0 0 1 0) 1)
          0).yaw ≠ (sampleState (11478453 / 134217728 : ℚ) 0 0 0 1 0).yaw := by
  rw [Binary32.setFlipYaw_first, Binary32.setFlipYaw_second]
  refine ⟨Binary32.setYaw_four_point_nine, rfl, ?_, ?_⟩
  · show (5739227 / 67108864 : ℚ) = 11478454 / 134217728
    norm_num
  · show (5739227 / 67108864 : ℚ) ≠ 11478453 / 134217728
    norm_num

/-- C15 (as the claim states it, refuted on `float`s): after
`rotator_setYaw (4.9f)` the stored yaw has bits `0x3daf25b5`; toggling the yaw
flip flag from 0 to 1 stores the yaw with bits `0xbdaf25b6`, which is not the
negation `0xbdaf25b5` of the stored yaw before the call. -/
theorem binary32_flip_toggle_is_not_negation :
    Binary32.rotator_setYaw (sampleState 0 0 0 0 1 0) (10276045 / 2097152)
        = sampleState (11478453 / 134217728) 0 0 0 1 0
      ∧ (Binary32.rotator_setFlipYaw (sampleState (11478453 / 134217728) 0 0 0 1 0) 1).yaw
        = -(11478454 / 134217728)
      ∧ (Binary32.rotator_setFlipYaw (sampleState (11478453 / 134217728) 0 0 0 1 0) 1).yaw
        ≠ -(sampleState (11478453 / 134217728 : ℚ) 0 0 0 1 0).yaw := by
  rw [Binary32.setFlipYaw_first]
  refine ⟨Binary32.setYaw_four_point_nine, ?_, ?_⟩
  · show (-(5739227 / 67108864) : ℚ) = -(11478454 / 134217728)
    norm_num
  · show (-(5739227 / 67108864) : ℚ) ≠ -(11478453 / 134217728)
    norm_num

end Binary32Facts
end Rotator
